import Mathlib

/-!
# Verification of the CV template-population engine (`src/parser/json_to_docx.py`)

A shallow embedding of the relevant parts of `json_to_docx.py` in Lean 4.
Python strings are modelled as `List Char` (Lean `String.data`); Python's
`str.lower()` is modelled for ASCII and the Cyrillic alphabet actually used by
the program; `date` objects become the `PDate` structure; `date.today()`
becomes an explicit `today : PDate` parameter.  The docx document model is
reduced to the data the program reads and writes: a paragraph is its ordered
list of runs, a run is its text plus the font attributes the program touches
(name, size, bold, italic, underline, explicit RGB color).  Paragraph-level
formatting (alignment, indents, numbering) is copied by the program but never
read back by any code path under scrutiny, so it is not part of the state.
-/

namespace CVBot

/-! ## Python-style character and string primitives -/

/-- Python `str.lower()` restricted to the alphabets used by the program:
ASCII `A`–`Z`, Cyrillic `А`–`Я` (U+0410–U+042F, lowered by +0x20) and
`Ё` (U+0401 → U+0451).  All other characters are unchanged. -/
def pyLowerChar (c : Char) : Char :=
  if 'A' ≤ c ∧ c ≤ 'Z' then Char.ofNat (c.toNat + 32)
  else if 'А' ≤ c ∧ c ≤ 'Я' then Char.ofNat (c.toNat + 32)
  else if c = 'Ё' then 'ё'
  else c

def pyLower (l : List Char) : List Char := l.map pyLowerChar

/-- ASCII whitespace, the fragment of Python's `str.strip()` default set
exercised by the program's inputs. -/
def isWsChar (c : Char) : Bool :=
  c = ' ' ∨ c = '\t' ∨ c = '\n' ∨ c = '\r' ∨ c = '\x0b' ∨ c = '\x0c'

def trimLeftWs (l : List Char) : List Char := l.dropWhile isWsChar

def trimRightWs (l : List Char) : List Char := (l.reverse.dropWhile isWsChar).reverse

/-- Python `str.strip()`. -/
def pyStrip (l : List Char) : List Char := trimRightWs (trimLeftWs l)

/-- `startsWithL pat l` ⟺ `pat` is a prefix of `l` (Python `str.startswith`). -/
def startsWithL : List Char → List Char → Bool
  | [], _ => true
  | _ :: _, [] => false
  | p :: ps, c :: cs => p = c && startsWithL ps cs

/-- Python's substring test `pat in s`: `pat` occurs contiguously in `l`.
Matches Python in accepting the empty pattern everywhere. -/
def substrInL (pat : List Char) : List Char → Bool
  | [] => pat.isEmpty
  | c :: cs => startsWithL pat (c :: cs) || substrInL pat cs

/-- Substring test on `String`s (`pat in s` in Python). -/
def substrS (pat s : String) : Bool := substrInL pat.data s.data

/-- Python `s.replace("", new)`: `new` is inserted before every character and
once at the end. -/
def pyReplaceEmptyPat (new : List Char) : List Char → List Char
  | [] => new
  | c :: rest => new ++ c :: pyReplaceEmptyPat new rest

/-- Left-to-right, non-overlapping replacement loop for a non-empty pattern
(Python `str.replace` replaces every occurrence).  The `fuel` argument makes
the recursion structural (each step consumes at least one character, so any
`fuel ≥ l.length` computes the fixpoint; see `pyReplaceFuel_congr`). -/
def pyReplaceFuel (old new : List Char) : Nat → List Char → List Char
  | 0, l => l
  | _ + 1, [] => []
  | fuel + 1, c :: rest =>
    if startsWithL old (c :: rest) then
      new ++ pyReplaceFuel old new fuel ((c :: rest).drop old.length)
    else
      c :: pyReplaceFuel old new fuel rest

/-- Python `s.replace(old, new)` (replace all occurrences). -/
def pyReplaceL (old new s : List Char) : List Char :=
  match old with
  | [] => pyReplaceEmptyPat new s
  | _ :: _ => pyReplaceFuel old new s.length s

/-- Python `s.replace(old, new)` on `String`s. -/
def pyReplace (s old new : String) : String :=
  ⟨pyReplaceL old.data new.data s.data⟩

/-- Python `str.strip()` on `String`s. -/
def pyStripS (s : String) : String := ⟨pyStrip s.data⟩

/-- Python `str.lower()` on `String`s. -/
def pyLowerS (s : String) : String := ⟨pyLower s.data⟩

/-! ## Dates and the period parser (`MONTHS_MAP`, `_parse_single_date`,
`parse_period_range`, lines 29–70 and 433–470 of `json_to_docx.py`) -/

/-- A Python `datetime.date`. -/
structure PDate where
  year : Nat
  month : Nat
  day : Nat
deriving DecidableEq, Repr

/-- `MONTHS_MAP` in source (insertion) order: Russian nominative/genitive
month names followed by the English ones. -/
def MONTHS_MAP : List (String × Nat) :=
  [("январь", 1), ("января", 1),
   ("февраль", 2), ("февраля", 2),
   ("март", 3), ("марта", 3),
   ("апрель", 4), ("апреля", 4),
   ("май", 5), ("мая", 5),
   ("июнь", 6), ("июня", 6),
   ("июль", 7), ("июля", 7),
   ("август", 8), ("августа", 8),
   ("сентябрь", 9), ("сентября", 9),
   ("октябрь", 10), ("октября", 10),
   ("ноябрь", 11), ("ноября", 11),
   ("декабрь", 12), ("декабря", 12),
   ("january", 1), ("february", 2), ("march", 3), ("april", 4),
   ("may", 5), ("june", 6), ("july", 7), ("august", 8),
   ("september", 9), ("october", 10), ("november", 11), ("december", 12)]

def CURRENT_PERIOD_TERMS : List String :=
  ["настоящее время", "по настоящее время", "по наст. время", "н.в.", "present", "current"]

def digitVal (c : Char) : Nat := c.toNat - '0'.toNat

/-- Match of `(19|20)\d{2}` anchored at the head of the list: two fixed
digits `19` or `20` followed by two decimal digits. -/
def yearAt : List Char → Option Nat
  | a :: b :: c :: d :: _ =>
    if ((a = '1' && b = '9') || (a = '2' && b = '0')) && c.isDigit && d.isDigit then
      some (1000 * digitVal a + 100 * digitVal b + 10 * digitVal c + digitVal d)
    else
      none
  | _ => none

/-- `re.search(r'(19|20)\d{2}', value)`: leftmost match of a four-digit year
starting with `19` or `20`. -/
def findYearScan : List Char → Option Nat
  | [] => none
  | a :: rest =>
    match yearAt (a :: rest) with
    | some y => some y
    | none => findYearScan rest

/-- The month-lookup loop of `_parse_single_date`: the first entry of
`MONTHS_MAP` whose key occurs in `value` wins; the default is January. -/
def firstMonthMatch (value : List Char) : Nat :=
  match MONTHS_MAP.find? (fun p => substrInL p.1.data value) with
  | some p => p.2
  | none => 1

/-- `any(term in value for term in CURRENT_PERIOD_TERMS)`. -/
def containsCurrentTerm (value : List Char) : Bool :=
  CURRENT_PERIOD_TERMS.any (fun t => substrInL t.data value)

/-- `_parse_single_date` over the raw character list of the argument. -/
def parseSingleDateL (today : PDate) (l : List Char) : Option PDate :=
  if l = [] then none
  else
    let value := pyLower (pyStrip l)
    if value = [] then none
    else if containsCurrentTerm value then some ⟨today.year, today.month, 1⟩
    else
      match findYearScan value with
      | none => none
      | some y => some ⟨y, firstMonthMatch value, 1⟩

/-- `_parse_single_date(text_value)` (line 433).  `date.today()` is the
explicit `today` parameter. -/
def parseSingleDate (today : PDate) (s : String) : Option PDate :=
  parseSingleDateL today s.data

/-- The dash alternatives of `re.split(r'[–—\-]+', period_str)`. -/
def isDashChar (c : Char) : Bool := c = '–' ∨ c = '—' ∨ c = '-'

/-- `re.split` on runs of dash characters: maximal separator runs split the
string; leading/trailing runs produce empty fields, like Python's `re.split`.
Processed right-to-left so the recursion is structural: a dash opens a new
empty field unless the next character is also a dash (same separator run). -/
def splitDashRuns : List Char → List (List Char)
  | [] => [[]]
  | c :: rest =>
    if isDashChar c then
      match rest with
      | [] => [] :: splitDashRuns rest
      | c2 :: _ =>
        if isDashChar c2 then splitDashRuns rest
        else [] :: splitDashRuns rest
    else
      match splitDashRuns rest with
      | [] => [[c]]
      | part :: parts => (c :: part) :: parts

/-- `parts[0].strip()` of `parse_period_range`. -/
def periodStartPart (s : String) : List Char :=
  pyStrip ((splitDashRuns s.data).headD s.data)

/-- `parts[1].strip() if len(parts) > 1 else ''` of `parse_period_range`. -/
def periodEndPart (s : String) : List Char :=
  match splitDashRuns s.data with
  | _ :: p1 :: _ => pyStrip p1
  | _ => []

/-- `parse_period_range(period_str)` (line 456): split on dashes, parse both
tokens, default the end to today. -/
def parsePeriodRange (today : PDate) (s : String) : Option PDate × Option PDate :=
  if s = "" then (none, none)
  else
    let startDate := parseSingleDateL today (periodStartPart s)
    let endDate :=
      if periodEndPart s ≠ [] then
        match parseSingleDateL today (periodEndPart s) with
        | some d => some d
        | none => some today
      else some today
    (startDate, endDate)

/-! ## Experience aggregation (`calculate_experience_months`,
`format_experience_summary`, lines 473–514) -/

/-- One entry of the `work_experience` collection, restricted to the fields
the program reads. -/
structure WorkItem where
  company : String
  position : String
  period : String
  responsibilities : List String
  technologies : List String
deriving DecidableEq, Repr

/-- The per-entry body of `calculate_experience_months`' loop: months between
start and end of the parsed period, skipped when the start is unparseable or
the interval is negative.  The running total is a Python `int`; it only ever
grows by the non-negative `max(months, 0)`, so `Nat` is a faithful carrier. -/
def experienceLoopStep (today : PDate) (total : Nat) (item : WorkItem) : Nat :=
  match parsePeriodRange today item.period with
  | (none, _) => total
  | (some sd, ed?) =>
    let ed := ed?.getD today
    let months : Int := ((ed.year : Int) - sd.year) * 12 + ((ed.month : Int) - sd.month)
    if months < 0 then total else total + months.toNat

/-- `calculate_experience_months(work_experience)` (line 473). -/
def calculateExperienceMonths (today : PDate) (wx : List WorkItem) : Nat :=
  wx.foldl (experienceLoopStep today) 0

/-- The body of `format_experience_summary` after the total is known
(line 493 onward).  `total <= 0` is `total = 0` for a `Nat`. -/
def formatExperienceTotal (total : Nat) : String :=
  if total = 0 then "МЕНЕЕ 1 МЕСЯЦА"
  else
    let years := total / 12
    let months := total % 12
    let parts : List String :=
      (if years ≠ 0 then
        [toString years ++ " " ++
          (if years % 10 = 1 ∧ years % 100 ≠ 11 then "ГОД"
           else if 2 ≤ years % 10 ∧ years % 10 ≤ 4 ∧ ¬(12 ≤ years % 100 ∧ years % 100 ≤ 14) then "ГОДА"
           else "ЛЕТ")]
       else []) ++
      (if months ≠ 0 then
        [toString months ++ " " ++
          (if months % 10 = 1 ∧ months % 100 ≠ 11 then "МЕСЯЦ"
           else if 2 ≤ months % 10 ∧ months % 10 ≤ 4 ∧ ¬(12 ≤ months % 100 ∧ months % 100 ≤ 14) then "МЕСЯЦА"
           else "МЕСЯЦЕВ")]
       else [])
    if parts ≠ [] then String.intercalate " " parts else "МЕНЕЕ 1 МЕСЯЦА"

/-- `format_experience_summary(work_experience)` (line 490). -/
def formatExperienceSummary (today : PDate) (wx : List WorkItem) : String :=
  formatExperienceTotal (calculateExperienceMonths today wx)

/-! ### Spec-side formulations for claim C4 -/

/-- The three-way Slavic plural rule exactly as the spec states it. -/
def ruPlural (n : Nat) (one few many : String) : String :=
  if n % 10 = 1 ∧ n % 100 ≠ 11 then one
  else if 2 ≤ n % 10 ∧ n % 10 ≤ 4 ∧ ¬(12 ≤ n % 100 ∧ n % 100 ≤ 14) then few
  else many

/-- Spec-side rendering of a positive month total: years and months, each
pluralized by `ruPlural`, joined by a space. -/
def specRenderDuration (total : Nat) : String :=
  String.intercalate " "
    ((if total / 12 ≠ 0 then
        [toString (total / 12) ++ " " ++ ruPlural (total / 12) "ГОД" "ГОДА" "ЛЕТ"]
      else []) ++
     (if total % 12 ≠ 0 then
        [toString (total % 12) ++ " " ++ ruPlural (total % 12) "МЕСЯЦ" "МЕСЯЦА" "МЕСЯЦЕВ"]
      else []))

/-- Spec-side per-entry contribution: the clamped month count, zero for a
negative interval, zero when the start date cannot be parsed. -/
def specContribMonths (today : PDate) (item : WorkItem) : Nat :=
  match parsePeriodRange today item.period with
  | (none, _) => 0
  | (some sd, ed?) =>
    let ed := ed?.getD today
    (((ed.year : Int) - sd.year) * 12 + ((ed.month : Int) - sd.month)).toNat

/-! ### Spec-side canonical rendering for claim C8 -/

def digitChar (n : Nat) : Char := Char.ofNat ('0'.toNat + n)

/-- The four decimal digits of a year below 10000. -/
def yearString (y : Nat) : List Char :=
  [digitChar (y / 1000 % 10), digitChar (y / 100 % 10),
   digitChar (y / 10 % 10), digitChar (y % 10)]

/-- The claim's canonical `"Month Year"` string: a month name from the
bilingual month table followed by the 4-digit year. -/
def canonicalMonthYear (nm : String) (y : Nat) : String :=
  ⟨nm.data ++ ' ' :: yearString y⟩

/-! ## The docx document model

A run carries its text and the font attributes the program reads or writes;
`none` is python-docx's `None` (attribute inherited from the style). -/

structure Run where
  text : String
  fontName : Option String
  fontSize : Option Nat
  bold : Option Bool
  italic : Option Bool
  underline : Option Bool
  colorRgb : Option Nat
deriving DecidableEq, Repr

/-- A fresh run created by `paragraph.add_run(text)`: no direct formatting. -/
def mkRun (t : String) : Run := ⟨t, none, none, none, none, none, none⟩

structure Paragraph where
  runs : List Run
deriving DecidableEq, Repr

/-- `paragraph.text`: concatenation of the run texts. -/
def paraText (p : Paragraph) : String := String.join (p.runs.map (fun r => r.text))

def DEFAULT_FONT_NAME : String := "Calibri Light"

/-- `DEFAULT_FONT_SIZE_PT = 10.5` pt, stored as 21 half-points. -/
def DEFAULT_FONT_SIZE : Nat := 21

/-- `apply_default_font(run)` (line 72): forces the fixed family and size.
The east-Asian font attribute is the same family and is not a separate
field of the model. -/
def applyDefaultFont (r : Run) : Run :=
  { r with fontName := some DEFAULT_FONT_NAME, fontSize := some DEFAULT_FONT_SIZE }

/-- `add_run_with_default_font(paragraph, text)` (line 99). -/
def addRunWithDefaultFont (p : Paragraph) (t : String) : Paragraph :=
  ⟨p.runs ++ [applyDefaultFont (mkRun t)]⟩

/-- `clone_run_formatting(source_run, target_run)` (line 381): Python
truthiness for name (non-empty) and size (non-zero), `is not None` for
bold/italic/underline, and a set color object for the RGB value. -/
def cloneRunFormatting (src tgt : Run) : Run :=
  let t1 := match src.fontName with
    | some n => if n = "" then tgt else { tgt with fontName := some n }
    | none => tgt
  let t2 := match src.fontSize with
    | some sz => if sz = 0 then t1 else { t1 with fontSize := some sz }
    | none => t1
  let t3 := match src.bold with
    | some b => { t2 with bold := some b }
    | none => t2
  let t4 := match src.italic with
    | some b => { t3 with italic := some b }
    | none => t3
  let t5 := match src.underline with
    | some b => { t4 with underline := some b }
    | none => t4
  match src.colorRgb with
  | some c => { t5 with colorRgb := some c }
  | none => t5

/-- The tail of `replace_text_preserving_format` (lines 344–358): re-apply
the captured first-run attributes to the surviving run, with the same
truthiness tests the source uses. -/
def applyCapturedFormatting (fontName : Option String) (fontSize : Option Nat)
    (bold italic underline : Option Bool) (colorRgb : Option Nat) (t : Run) : Run :=
  let t1 := match fontName with
    | some n => if n = "" then t else { t with fontName := some n }
    | none => t
  let t2 := match fontSize with
    | some sz => if sz = 0 then t1 else { t1 with fontSize := some sz }
    | none => t1
  let t3 := match bold with
    | some b => { t2 with bold := some b }
    | none => t2
  let t4 := match italic with
    | some b => { t3 with italic := some b }
    | none => t3
  let t5 := match underline with
    | some b => { t4 with underline := some b }
    | none => t4
  match colorRgb with
  | some c => { t5 with colorRgb := some c }
  | none => t5

/-- `replace_text_preserving_format(paragraph, old_text, new_text,
force_default_font=True)` (line 288): no-op returning `False` when
`old_text` is absent from the concatenated text; otherwise the whole
paragraph text (with `old_text` replaced) is written into the first run,
every other run is deleted, the captured first-run attributes are
re-applied, and the default font is forced for non-empty `new_text`. -/
def replaceTextPreservingFormat (p : Paragraph) (old new : String)
    (forceDefaultFont : Bool) : Bool × Paragraph :=
  if substrS old (paraText p) then
    (true, ⟨[
      (fun target =>
        if forceDefaultFont ∧ new ≠ "" then applyDefaultFont target else target)
      (applyCapturedFormatting
        (match p.runs with | r :: _ => r.fontName | [] => none)
        (match p.runs with | r :: _ => r.fontSize | [] => none)
        (match p.runs with | r :: _ => r.bold | [] => none)
        (match p.runs with | r :: _ => r.italic | [] => none)
        (match p.runs with | r :: _ => r.underline | [] => none)
        (match p.runs with | r :: _ => r.colorRgb | [] => none)
        { (match p.runs with | r :: _ => r | [] => mkRun "") with
            text := pyReplace (paraText p) old new })]⟩)
  else
    (false, p)

/-! ## Heuristic header/slot discovery (`find_section_by_header`,
`find_empty_paragraph_after_header`, lines 938–1024).  Tables are not
modelled: every claim instance concerns plain body paragraphs, and the
table branch only fires when no paragraph matches. -/

/-- The `enumerate(doc.paragraphs)` scan of `find_section_by_header`:
index of the first paragraph whose lowered, stripped text contains one of
the keywords. -/
def findSectionIdx (kws : List String) : List Paragraph → Nat → Option Nat
  | [], _ => none
  | p :: rest, i =>
    if kws.any (fun kw =>
        substrInL (pyLower kw.data) (pyStrip (pyLower (paraText p).data))) then
      some i
    else findSectionIdx kws rest (i + 1)

/-- `find_section_by_header(doc, header_keywords)` (line 938), paragraph
branch: the position immediately after the header, clamped to the last
index. -/
def findSectionByHeader (paras : List Paragraph) (kws : List String) : Option Nat :=
  match findSectionIdx kws paras 0 with
  | some i => some (if i + 1 < paras.length then i + 1 else i)
  | none => none

/-- Line 1003's placeholder sentinel list. -/
def PLACEHOLDER_SENTINELS : List String :=
  ["", "—", "-", "•", "Место для указания вакансии"]

/-- Lines 1011–1013: header keywords of the other sections. -/
def OTHER_SECTION_KEYWORDS : List String :=
  ["опыт работы", "проектный опыт", "общая информация", "скрининг",
   "образование", "навыки", "вакансия", "work experience",
   "project experience", "general info", "screening"]

/-- The loop's `is_header` test: a supplied keyword occurs in the
stripped-then-lowered paragraph text. -/
def isHeaderPara (kws : List String) (p : Paragraph) : Bool :=
  kws.any (fun kw =>
    substrInL (pyLower kw.data) (pyLower (pyStrip (paraText p).data)))

/-- The loop's other-section test on the same lowered text. -/
def isOtherSectionHeader (p : Paragraph) : Bool :=
  OTHER_SECTION_KEYWORDS.any (fun kw =>
    substrInL (pyLower kw.data) (pyLower (pyStrip (paraText p).data)))

/-- The `for i in range(header_idx, min(header_idx + max_search, len))` loop
of `find_empty_paragraph_after_header` (lines 992–1016); `fuel` is the
number of remaining indices of the range. -/
def findEmptyScan (kws : List String) (paras : List Paragraph) : Nat → Nat → Option Nat
  | _, 0 => none
  | i, fuel + 1 =>
    let text := pyStrip (paraText (paras.getD i ⟨[]⟩)).data
    let isHeader := isHeaderPara kws (paras.getD i ⟨[]⟩)
    if isHeader ∧ text ≠ [] then findEmptyScan kws paras (i + 1) fuel
    else if text = [] ∨ PLACEHOLDER_SENTINELS.any (fun s => text = s.data) then some i
    else if substrInL "\x7b\x7b".data text then some i
    else if text ≠ [] ∧ isHeader = false then
      if isOtherSectionHeader (paras.getD i ⟨[]⟩) = false then some i
      else findEmptyScan kws paras (i + 1) fuel
    else findEmptyScan kws paras (i + 1) fuel

/-- `find_empty_paragraph_after_header(doc, header_keywords, max_search=15)`
(line 972), paragraph branch, including the post-loop fallback to the first
paragraph after the header when it is not itself a header. -/
def findEmptyParagraphAfterHeader (paras : List Paragraph) (kws : List String)
    (maxSearch : Nat) : Option Nat :=
  match findSectionByHeader paras kws with
  | none => none
  | some h =>
    match findEmptyScan kws paras h (min (h + maxSearch) paras.length - h) with
    | some i => some i
    | none =>
      if h < paras.length then
        if isHeaderPara kws (paras.getD h ⟨[]⟩) then none
        else some h
      else none

/-! ## Recency sort (`parse_date_from_period`, `sort_projects_by_date`,
lines 2890–2998) -/

/-- One `project_experience` entry, restricted to the fields
`sort_projects_by_date` reads. -/
structure Project where
  company : String
  period : String
deriving DecidableEq, Repr

/-- The month table local to `parse_date_from_period` (lines 2906–2911):
nominative Russian names and English names only. -/
def SORT_MONTHS : List (String × Nat) :=
  [("январь", 1), ("февраль", 2), ("март", 3), ("апрель", 4), ("май", 5),
   ("июнь", 6), ("июль", 7), ("август", 8), ("сентябрь", 9), ("октябрь", 10),
   ("ноябрь", 11), ("декабрь", 12),
   ("january", 1), ("february", 2), ("march", 3), ("april", 4), ("may", 5),
   ("june", 6), ("july", 7), ("august", 8), ("september", 9), ("october", 10),
   ("november", 11), ("december", 12)]

/-- Python's `\w` for the alphabets in play: ASCII word characters plus the
Cyrillic letters (`А`–`я` and `Ёё`). -/
def isWordChar (c : Char) : Bool :=
  c.isAlpha ∨ c.isDigit ∨ c = '_' ∨ ('А' ≤ c ∧ c ≤ 'я') ∨ c = 'Ё' ∨ c = 'ё'

/-- Anchored match of `(\w+)\s+(\d{4})`: maximal word run, at least one
whitespace, then four digits.  Backtracking cannot help: shortening `\w+`
puts a word character under `\s`, and shortening `\s+` puts whitespace under
`\d`, so the greedy reading is the regex's only reading. -/
def matchWordYearAt (l : List Char) : Option (List Char × Nat) :=
  let w := l.takeWhile isWordChar
  if w = [] then none
  else
    let rest1 := l.dropWhile isWordChar
    if rest1.takeWhile isWsChar = [] then none
    else
      match rest1.dropWhile isWsChar with
      | a :: b :: c :: d :: _ =>
        if a.isDigit ∧ b.isDigit ∧ c.isDigit ∧ d.isDigit then
          some (w, 1000 * digitVal a + 100 * digitVal b + 10 * digitVal c + digitVal d)
        else none
      | _ => none

/-- `re.search(r'(\w+)\s+(\d{4})', ...)`: leftmost anchored match, advancing
one character on failure. -/
def findWordYear : List Char → Option (List Char × Nat)
  | [] => none
  | c :: rest =>
    match matchWordYearAt (c :: rest) with
    | some r => some r
    | none => findWordYear rest

/-- Anchored match of `\d{4}`. -/
def fourDigitsAt : List Char → Option Nat
  | a :: b :: c :: d :: _ =>
    if a.isDigit ∧ b.isDigit ∧ c.isDigit ∧ d.isDigit then
      some (1000 * digitVal a + 100 * digitVal b + 10 * digitVal c + digitVal d)
    else none
  | _ => none

/-- `re.search(r'(\d{4})', ...)`: leftmost four consecutive digits. -/
def findFourDigits : List Char → Option Nat
  | [] => none
  | c :: rest =>
    match fourDigitsAt (c :: rest) with
    | some v => some v
    | none => findFourDigits rest

/-- `parse_date_from_period(period_str)` (line 2890): `(year, month)` from
the first "month-name year" pair, else `(year, 0)` from the first bare
4-digit year, else `(0, 0)`. -/
def parseDateFromPeriod (s : String) : Nat × Nat :=
  if s = "" then (0, 0)
  else
    let pl := pyLower s.data
    let fallback :=
      match findFourDigits pl with
      | some y2 => (y2, 0)
      | none => (0, 0)
    match findWordYear pl with
    | some (w, year) =>
      let month := ((SORT_MONTHS.find? (fun p => p.1.data = w)).map (fun p => p.2)).getD 0
      if month > 0 then (year, month) else fallback
    | none => fallback

/-- `company.split(sep, 1)[1]`: the text after the first occurrence of
`sep`, when present. -/
def afterFirstSep (sep : List Char) : List Char → Option (List Char)
  | [] => none
  | c :: rest =>
    if startsWithL sep (c :: rest) then some ((c :: rest).drop sep.length)
    else afterFirstSep sep rest

/-- Python `str.split(sep)` for a non-empty separator, left-to-right and
non-overlapping; `fuel ≥ l.length` computes the fixpoint. -/
def pySplitFuel (sep : List Char) : Nat → List Char → List (List Char)
  | 0, l => [l]
  | _ + 1, [] => [[]]
  | fuel + 1, c :: rest =>
    if startsWithL sep (c :: rest) then
      [] :: pySplitFuel sep fuel ((c :: rest).drop sep.length)
    else
      match pySplitFuel sep fuel rest with
      | [] => [[c]]
      | part :: parts => (c :: part) :: parts

def pySplit (sep l : List Char) : List (List Char) := pySplitFuel sep l.length l

/-- `re.finditer(r'\(([^)]+)\)', ...)`: the non-overlapping parenthesized
groups, left to right; an unmatched `(` with no later `)` ends the scan. -/
def parenGroupsFuel : Nat → List Char → List (List Char)
  | 0, _ => []
  | _ + 1, [] => []
  | fuel + 1, c :: rest =>
    if c = '(' then
      match rest.dropWhile (fun x => ¬(x = ')')) with
      | ')' :: tail =>
        if rest.takeWhile (fun x => ¬(x = ')')) = [] then parenGroupsFuel fuel rest
        else rest.takeWhile (fun x => ¬(x = ')')) :: parenGroupsFuel fuel tail
      | _ => []
    else parenGroupsFuel fuel rest

def parenGroups (l : List Char) : List (List Char) := parenGroupsFuel l.length l

/-- The period-extraction chain of `get_sort_key` (lines 2944–2979): a
` / `-suffix, a trailing comma-separated date, a parenthesized group (with
fallback to the second-to-last group), then the explicit `period` field. -/
def extractPeriod (p : Project) : List Char :=
  let company := p.company.data
  let period1 : List Char :=
    if substrInL " / ".data company then
      (afterFirstSep " / ".data company).getD []
    else if substrInL ", ".data company then
      let parts := pySplit ", ".data company
      if parts.length > 1 then
        if (findFourDigits (parts.getLastD [])).isSome then parts.getLastD [] else []
      else []
    else if substrInL "(".data company ∧ substrInL ")".data company then
      match parenGroups company with
      | [] => []
      | g :: gs =>
        let groups := g :: gs
        let lastG := groups.getLastD []
        if (findFourDigits lastG).isSome then lastG
        else if groups.length > 1 then groups.getD (groups.length - 2) [] else lastG
    else []
  if period1 = [] then p.period.data else period1

/-- The year parsed for a project; positive exactly when the code considers
the date parseable. -/
def projectYear (p : Project) : Nat :=
  (parseDateFromPeriod ⟨extractPeriod p⟩).1

def projectMonth (p : Project) : Nat :=
  (parseDateFromPeriod ⟨extractPeriod p⟩).2

/-- `get_sort_key(project)` (line 2944): ascending-sortable key, negated
year/month for parseable dates and `(9999, 0)`-style keys for unparseable
ones. -/
def getSortKey (p : Project) : Int × Int :=
  (if projectYear p > 0 then -(projectYear p : Int) else 9999,
   if projectMonth p > 0 then -(projectMonth p : Int) else 0)

/-- The total preorder that Python's `sorted` applies to the keys:
lexicographic comparison of the two `Int` components. -/
def keyLe (a b : Project) : Prop :=
  (getSortKey a).1 < (getSortKey b).1
  ∨ ((getSortKey a).1 = (getSortKey b).1 ∧ (getSortKey a).2 ≤ (getSortKey b).2)

instance : DecidableRel keyLe := fun a b => by
  unfold keyLe
  exact inferInstance

instance : IsTotal Project keyLe where
  total a b := by unfold keyLe; omega

instance : IsTrans Project keyLe where
  trans a b c hab hbc := by unfold keyLe at *; omega

/-- `sort_projects_by_date(projects)` (line 2934): Python's `sorted` is the
stable sort by `get_sort_key`; `List.insertionSort` is stable for the same
total preorder, so the two agree on every input. -/
def sortProjectsByDate (ps : List Project) : List Project :=
  List.insertionSort keyLe ps

/-! ## The marker-block expander (`find_template_block`,
`set_paragraph_text`, `process_work_experience`, lines 404–420, 671–683,
798–862) -/

/-- `set_paragraph_text(paragraph, text, template_para)` (line 404): all
runs removed, one default-font run added, the template's first-run
formatting cloned onto it when the template has runs.  The old runs are all
deleted first, so the old paragraph contributes nothing to the result; the
parameter is kept for signature fidelity. -/
def setParagraphText (_p : Paragraph) (text : String) (template : Option Paragraph) :
    Paragraph :=
  match template with
  | some tp =>
    match tp.runs with
    | tr :: _ => ⟨[cloneRunFormatting tr (applyDefaultFont (mkRun text))]⟩
    | [] => addRunWithDefaultFont ⟨[]⟩ text
  | none => addRunWithDefaultFont ⟨[]⟩ text

/-- The scan of `find_template_block` (line 671): `start_idx` keeps moving
to the latest start-marker paragraph until the first end-marker paragraph
after a start is found. -/
def findTemplateBlockAux (sm em : String) :
    List Paragraph → Nat → Option Nat → Option (Nat × Nat)
  | [], _, _ => none
  | p :: rest, i, st =>
    let st' := if substrS sm (paraText p) then some i else st
    match st' with
    | some s =>
      if substrS em (paraText p) then some (s, i)
      else findTemplateBlockAux sm em rest (i + 1) st'
    | none => findTemplateBlockAux sm em rest (i + 1) st'

def findTemplateBlock (paras : List Paragraph) (sm em : String) : Option (Nat × Nat) :=
  findTemplateBlockAux sm em paras 0 none

/-- Lines 816–820 of `process_work_experience`: strip the start marker, then
the end marker, from a paragraph that carries them. -/
def stripMarkersPara (sm em : String) (p : Paragraph) : Paragraph :=
  let p1 := if substrS sm (paraText p) then (replaceTextPreservingFormat p sm "" true).2 else p
  if substrS em (paraText p1) then (replaceTextPreservingFormat p1 em "" true).2 else p1

/-- Python `sep.join(parts)`. -/
def joinSep (sep : String) : List String → String
  | [] => ""
  | [x] => x
  | x :: y :: rest => x ++ sep ++ joinSep sep (y :: rest)

/-- The `'\n'.join('• ...')` rendering for `{{responsibilities}}`
(line 847). -/
def respListText (w : WorkItem) : String :=
  if w.responsibilities ≠ [] then
    joinSep "\n" (w.responsibilities.map (fun r => "• " ++ r))
  else ""

/-- The technologies rendering (lines 852–855): newline-joined for
category-style entries (containing a colon), comma-joined otherwise. -/
def techListText (w : WorkItem) : String :=
  if w.technologies ≠ [] then
    if w.technologies.any (fun t => substrS ":" t) then joinSep "\n" w.technologies
    else joinSep ", " w.technologies
  else ""

/-- The per-template-paragraph body of the insertion loop (lines 829–858):
substitute `{{company}}`/`{{position}}`/`{{period}}` in the template text,
write it as a fresh paragraph cloned from the template's first run, then
substitute `{{responsibilities}}` and `{{technologies}}` in place. -/
def renderWorkPara (tpl : Paragraph) (item : WorkItem) : Paragraph :=
  let t0 := paraText tpl
  let t1 := if substrS "{{company}}" t0 then pyReplace t0 "{{company}}" item.company else t0
  let t2 := if substrS "{{position}}" t1 then pyReplace t1 "{{position}}" item.position else t1
  let t3 := if substrS "{{period}}" t2 then pyReplace t2 "{{period}}" item.period else t2
  let p1 := setParagraphText ⟨[]⟩ t3 (some tpl)
  let p2 := if substrS "{{responsibilities}}" t3 then
      (replaceTextPreservingFormat p1 "{{responsibilities}}" (respListText item) true).2
    else p1
  if substrS "{{technologies}}" t3 then
    (replaceTextPreservingFormat p2 "{{technologies}}" (techListText item) true).2
  else p2

/-- The inner `for template_para in template_paras_clean` loop: insert one
rendered paragraph per template paragraph, advancing the insertion index. -/
def insertGroup : List Paragraph → WorkItem → Nat → List Paragraph → Nat × List Paragraph
  | [], _, idx, doc => (idx, doc)
  | tpl :: rest, item, idx, doc =>
    insertGroup rest item (idx + 1) (doc.insertIdx idx (renderWorkPara tpl item))

/-- The outer `for work_item in work_experience` loop. -/
def processWorkItemsLoop (clean : List Paragraph) :
    List WorkItem → Nat → List Paragraph → Nat × List Paragraph
  | [], idx, doc => (idx, doc)
  | item :: rest, idx, doc =>
    let r := insertGroup clean item idx doc
    processWorkItemsLoop clean rest r.1 r.2

/-- `process_work_experience(doc, data)` (line 798) over the paragraph list:
early return for an empty collection or a missing/degenerate block;
otherwise strip the markers everywhere, delete the paragraphs strictly
between them, and insert one cloned group per item before the end-marker
paragraph.  Returns the new paragraph list and `added_count`. -/
def processWorkExperience (doc : List Paragraph) (wx : List WorkItem) :
    List Paragraph × Nat :=
  if wx = [] then (doc, 0)
  else
    match findTemplateBlock doc "\x7b\x7b#work_experience\x7d\x7d" "{{/work_experience}}" with
    | none => (doc, 0)
    | some (s, e) =>
      let templateParas := (doc.drop s).take (e - s + 1)
      let clean := templateParas.filter (fun p =>
        ¬ substrS "\x7b\x7b#work_experience\x7d\x7d" (paraText p)
        ∧ ¬ substrS "{{/work_experience}}" (paraText p))
      if clean = [] then (doc, 0)
      else
        let stripped := doc.map
          (stripMarkersPara "\x7b\x7b#work_experience\x7d\x7d" "{{/work_experience}}")
        let afterDelete := stripped.take (s + 1) ++ stripped.drop e
        ((processWorkItemsLoop clean wx (s + 1) afterDelete).2, wx.length)

/-! ### The concrete template and spec-side renderings for claim C1 -/

def workHeaderPara : Paragraph := ⟨[mkRun "ОПЫТ РАБОТЫ"]⟩
def workStartPara : Paragraph := ⟨[mkRun "\x7b\x7b#work_experience\x7d\x7d"]⟩
def workCompanyTpl : Paragraph := ⟨[mkRun "{{company}} — {{position}}, {{period}}"]⟩
def workRespTpl : Paragraph := ⟨[mkRun "{{responsibilities}}"]⟩
def workTechTpl : Paragraph := ⟨[mkRun "{{technologies}}"]⟩
def workEndPara : Paragraph := ⟨[mkRun "{{/work_experience}}"]⟩
def workFooterPara : Paragraph := ⟨[mkRun "Конец"]⟩

/-- A representative marker template: header, `{{#work_experience}}`, three
template paragraphs carrying every per-item sub-placeholder, the closing
marker, and a footer. -/
def workTemplateDoc : List Paragraph :=
  [workHeaderPara, workStartPara, workCompanyTpl, workRespTpl, workTechTpl,
   workEndPara, workFooterPara]

/-- The texts of one expanded per-item paragraph group. -/
def expectedGroupTexts (w : WorkItem) : List String :=
  [w.company ++ " — " ++ w.position ++ ", " ++ w.period,
   respListText w, techListText w]

/-- No marker syntax can survive in a string without `{` and `}`. -/
def noBraceStr (s : String) : Prop := ∀ c ∈ s.data, c ≠ '{' ∧ c ≠ '}'

/-- Clean item data: no brace characters in any field. -/
def cleanWorkItem (w : WorkItem) : Prop :=
  noBraceStr w.company ∧ noBraceStr w.position ∧ noBraceStr w.period
  ∧ (∀ r ∈ w.responsibilities, noBraceStr r) ∧ (∀ t ∈ w.technologies, noBraceStr t)

/-! ## The save step of `fill_document` (lines 1323–1352).  File-system
effects are abstracted by a `save` oracle giving each path's outcome;
`datetime.now()` is an explicit parameter. -/

/-- Outcome of one `doc.save(path)` call. -/
inductive SaveOutcome where
  | ok
  | permissionError
  | otherError
deriving DecidableEq, Repr

/-- What the save step does, observably: the path that got written, or an
exception propagating to the caller (`fill_document` itself returns `None`
in both cases — it has no `return` statement). -/
inductive SaveResult where
  | saved (path : String)
  | raised
deriving DecidableEq, Repr

structure DateTimeM where
  year : Nat
  month : Nat
  day : Nat
  hour : Nat
  minute : Nat
  second : Nat
deriving DecidableEq, Repr

def pad2 (n : Nat) : String := if n < 10 then "0" ++ toString n else toString n

def pad4 (n : Nat) : String :=
  if n < 10 then "000" ++ toString n
  else if n < 100 then "00" ++ toString n
  else if n < 1000 then "0" ++ toString n
  else toString n

/-- `datetime.now().strftime("%Y%m%d_%H%M%S")` (line 1336): note the
underscore between the date and time fields. -/
def strftimeTimestamp (t : DateTimeM) : String :=
  pad4 t.year ++ pad2 t.month ++ pad2 t.day ++ "_"
    ++ pad2 t.hour ++ pad2 t.minute ++ pad2 t.second

/-- Index of the last occurrence of `c`. -/
def lastIndexOf (c : Char) (l : List Char) : Option Nat :=
  (List.range l.length).foldl
    (fun acc i => if l.getD i ' ' = c then some i else acc) none

/-- POSIX `os.path.splitext`: split at the last dot after the last slash,
unless the file name up to that dot is entirely dots. -/
def splitext (p : String) : String × String :=
  let l := p.data
  let sepIdx : Int := match lastIndexOf '/' l with | some i => (i : Int) | none => -1
  let dotIdx : Int := match lastIndexOf '.' l with | some i => (i : Int) | none => -1
  if sepIdx < dotIdx then
    let fnameStart := (sepIdx + 1).toNat
    let mid := (l.drop fnameStart).take (dotIdx.toNat - fnameStart)
    if mid.any (fun c => ¬ c = '.') then
      (⟨l.take dotIdx.toNat⟩, ⟨l.drop dotIdx.toNat⟩)
    else (p, "")
  else (p, "")

/-- Lines 1334–1337: `<base>_<timestamp><ext>`. -/
def fallbackOutputPath (output_path : String) (now : DateTimeM) : String :=
  (splitext output_path).1 ++ "_" ++ strftimeTimestamp now ++ (splitext output_path).2

/-- The `try doc.save(...)` cascade of `fill_document` (lines 1326–1352):
success writes the requested path; a `PermissionError` triggers one retry at
the timestamped alternate path; the retry's failure, or any other failure of
the first save, re-raises. -/
def fillDocumentSave (save : String → SaveOutcome) (now : DateTimeM)
    (output_path : String) : SaveResult :=
  match save output_path with
  | .ok => .saved output_path
  | .permissionError =>
    match save (fallbackOutputPath output_path now) with
    | .ok => .saved (fallbackOutputPath output_path now)
    | .permissionError => .raised
    | .otherError => .raised
  | .otherError => .raised

instance (s : String) : Decidable (noBraceStr s) := by
  unfold noBraceStr
  infer_instance

instance (w : WorkItem) : Decidable (cleanWorkItem w) := by
  unfold cleanWorkItem
  infer_instance

/-! ## Project-block filling (`fill_single_project_block`,
`fill_single_project_block_in_table`, `fill_single_column_project_table`,
and pass 2 of `fill_project_experience_by_header`; lines 2536–2823 and
3056–3138).

Python name resolution is part of this model: `moduleGlobals` lists the
names bound at the top level of `src/parser/json_to_docx.py`, and a
reference to a name that is neither a local variable of the executing
function nor a module global (none of the relevant names is a builtin)
raises `NameError`.  A raised exception propagates out of `fill_document`
before the document is saved, so a partially mutated in-memory document is
unobservable; the `Except` embedding therefore carries no state in the
error case. -/

/-- A raised Python exception, as far as these functions can raise one. -/
inductive PyErr where
  | nameError (name : String)
  | attributeError (name : String)
  | indexError
deriving DecidableEq, Repr

/-- Exception-propagating sequencing (Python statement order). -/
def bindE {α β : Type} (x : Except PyErr α) (f : α → Except PyErr β) :
    Except PyErr β :=
  match x with
  | Except.error e => Except.error e
  | Except.ok a => f a

/-- Every name bound at the top level of `src/parser/json_to_docx.py`:
the imports (lines 8–25), the module constants (lines 29–69) and the
column-0 `def`s.  Neither `flatten_technology_entries` nor `achievements`
is among them. -/
def moduleGlobals : List String :=
  ["sys", "os", "json", "argparse", "re", "date", "Path",
   "Document", "Pt", "RGBColor", "Cm", "WD_PARAGRAPH_ALIGNMENT", "qn",
   "MONTHS_MAP", "CURRENT_PERIOD_TERMS", "DURATION_WORD_REPLACEMENTS",
   "DURATION_WORD_PATTERN", "DEFAULT_FONT_NAME", "DEFAULT_FONT_SIZE_PT",
   "BULLET_LEFT_INDENT_CM",
   "apply_default_font", "iter_container_paragraphs",
   "apply_default_font_to_document", "add_run_with_default_font",
   "configure_bullet_paragraph", "ensure_runs_not_bold",
   "write_label_and_value", "normalize_label_value_format",
   "normalize_bullet_items", "set_bullet_list_in_cell",
   "set_labeled_bullet_list", "set_bullet_list_in_document",
   "load_json", "find_placeholder_runs", "replace_text_preserving_format",
   "clone_paragraph_formatting", "clone_run_formatting",
   "set_paragraph_text", "uppercase_duration_words", "_parse_single_date",
   "parse_period_range", "calculate_experience_months",
   "format_experience_summary", "fill_label_paragraph",
   "normalize_category_name", "remove_paragraph_numbering",
   "find_value_cell_for_header", "fill_skills_section", "format_list_item",
   "find_template_block", "process_simple_fields", "process_list_field",
   "process_work_experience", "process_project_experience",
   "find_section_by_header", "find_empty_paragraph_after_header",
   "fill_by_header", "fill_document", "fill_by_headers_mode",
   "fill_list_in_table_column", "fill_list_by_header",
   "fill_work_experience_by_header", "find_template_block_after_header",
   "find_project_block_fields", "find_all_project_blocks",
   "find_all_project_blocks_in_tables",
   "find_project_block_fields_in_table_row", "fill_single_project_block",
   "fill_single_project_block_in_table", "fill_single_column_project_table",
   "parse_date_from_period", "sort_projects_by_date",
   "fill_project_experience_by_header", "fill_project_experience_simple",
   "main"]

/-- Resolution of a global name: look it up among the module bindings, a
miss raises `NameError`. -/
def resolveGlobal (name : String) : Except PyErr Unit :=
  if moduleGlobals.contains name then Except.ok () else
    Except.error (PyErr.nameError name)

/-- `ensure_runs_not_bold(paragraph)` (line 112): `run.font.bold` and
`run.bold` are the same attribute of the model; every run gets an
explicit `False`. -/
def ensureRunsNotBold (p : Paragraph) : Paragraph :=
  ⟨p.runs.map (fun r => { r with bold := some false })⟩

/-- `str.upper()` on the alphabets this program handles (the inverse of
`pyLowerChar`). -/
def pyUpperChar (c : Char) : Char :=
  if 'a' ≤ c ∧ c ≤ 'z' then Char.ofNat (c.toNat - 32)
  else if 'а' ≤ c ∧ c ≤ 'я' then Char.ofNat (c.toNat - 32)
  else if c = 'ё' then 'Ё'
  else c

/-- `DURATION_WORD_REPLACEMENTS` (line 49) in source order; the order is
also the alternation order of `DURATION_WORD_PATTERN` (line 65). -/
def DURATION_WORD_REPLACEMENTS : List (String × String) :=
  [("год", "ГОД"), ("года", "ГОДА"), ("году", "ГОДУ"), ("годом", "ГОДОМ"),
   ("лет", "ЛЕТ"), ("г.", "Г."), ("г", "Г"),
   ("месяц", "МЕСЯЦ"), ("месяца", "МЕСЯЦА"), ("месяцев", "МЕСЯЦЕВ"),
   ("месяце", "МЕСЯЦЕ"), ("мес", "МЕС"), ("мес.", "МЕС.")]

/-- Case-insensitive (`re.IGNORECASE`) anchored match of a literal. -/
def ciStartsWith : List Char → List Char → Bool
  | [], _ => true
  | _ :: _, [] => false
  | p :: ps, c :: cs => pyLowerChar c == pyLowerChar p && ciStartsWith ps cs

/-- `\b`: true between two positions whose word-character status differs;
absent characters count as non-word. -/
def isBoundary (left right : Option Char) : Bool :=
  (match left with | some c => isWordChar c | none => false)
    != (match right with | some c => isWordChar c | none => false)

/-- One position of the `DURATION_WORD_PATTERN` scan: the alternation is a
list of literals tried in pattern order, so the first alternative that
matches case-insensitively and is followed by a word boundary wins
(backtracking over a literal alternation).  Returns the matched source
characters. -/
def tryDurationMatchAt (s : List Char) : Option (List Char) :=
  (DURATION_WORD_REPLACEMENTS.find? (fun kv =>
      ciStartsWith kv.1.data s
        && isBoundary (s.take kv.1.data.length).getLast?
            (s.drop kv.1.data.length).head?)).map
    (fun kv => s.take kv.1.data.length)

/-- The `replacer` closure of `uppercase_duration_words` (line 426): look
the lowered match up in the table, falling back to `str.upper()`.  The
fallback is unreachable: every alternative of the pattern lowers to its
own table key. -/
def durationReplacer (word : List Char) : String :=
  match DURATION_WORD_REPLACEMENTS.find? (fun kv => kv.1.data == pyLower word) with
  | some kv => kv.2
  | none => ⟨word.map pyUpperChar⟩

/-- The `DURATION_WORD_PATTERN.sub` scan, left to right: at a word boundary
try the alternation; on a match emit the replacement and resume right after
the matched text (the character before the next position is the last
matched source character), otherwise copy one character.  Each step
consumes at least one character, so `fuel = length` suffices. -/
def durationSubFuel : Nat → Option Char → List Char → List Char
  | 0, _, s => s
  | _ + 1, _, [] => []
  | fuel + 1, prev, c :: rest =>
    match (if isBoundary prev (some c) then tryDurationMatchAt (c :: rest)
           else none) with
    | some matched =>
      (durationReplacer matched).data
        ++ durationSubFuel fuel matched.getLast? ((c :: rest).drop matched.length)
    | none => c :: durationSubFuel fuel (some c) rest

/-- `uppercase_duration_words(text)` (line 421). -/
def uppercaseDurationWords (text : String) : String :=
  if text = "" then text
  else ⟨durationSubFuel text.data.length none text.data⟩

/-- `normalize_bullet_items(items, placeholders)` (line 164).  The list
items this program receives are strings (`str(item)` is then the identity;
the `format_list_item` branch fires only for dict items, which none of the
claims exercise). -/
def normalizeBulletItems (items : List String) (placeholders : List String) :
    List String :=
  (items.map (fun item => pyStripS (pyReplace item "•" ""))).filter
    (fun text => !(text == "") && !(placeholders.contains text))

/-- `configure_bullet_paragraph(paragraph)` (line 105) sets only
paragraph-level layout (alignment, indents, numbering removal), none of
which the `Paragraph` model carries; its runs are untouched. -/
def configureBulletParagraph (p : Paragraph) : Paragraph := p

/-- In-place update of the i-th element, as mutation of a live python-docx
collection: out of range does nothing. -/
def updateAt {α : Type} : List α → Nat → (α → α) → List α
  | [], _, _ => []
  | x :: rest, 0, f => f x :: rest
  | x :: rest, n + 1, f => x :: updateAt rest n f

/-- `doc.paragraphs[i]`: raises `IndexError` when out of range. -/
def getParaAt (doc : List Paragraph) (i : Nat) : Except PyErr Paragraph :=
  match doc[i]? with
  | some p => Except.ok p
  | none => Except.error PyErr.indexError

/-- `set_bullet_list_in_document(doc, indices, items)` (line 224).  The
multi-bullet loop calls `current_para.insert_paragraph_after()` (line 244);
python-docx paragraphs have no such method and this program defines none,
so two or more normalized items raise `AttributeError` right after the
first bullet is written (the partial mutation is unobservable, see above).
A single normalized item is written into the base paragraph after the
other listed paragraphs are deleted highest-index first. -/
def setBulletListInDocument (doc : List Paragraph) (indices : List Nat)
    (items : List String) : Except PyErr (List Paragraph × Bool) :=
  if indices.isEmpty then Except.ok (doc, false)
  else
    match normalizeBulletItems items [] with
    | [] => Except.ok (doc, false)
    | text :: rest =>
      match (indices.dedup).insertionSort (fun a b => a ≤ b) with
      | [] => Except.ok (doc, false)
      | baseIdx :: tailIdx =>
        let doc1 := tailIdx.reverse.foldl (fun d idx => d.eraseIdx idx) doc
        if baseIdx ≥ doc1.length then Except.ok (doc1, false)
        else if rest.isEmpty then
          Except.ok (updateAt doc1 baseIdx (fun _ =>
            addRunWithDefaultFont (configureBulletParagraph ⟨[]⟩)
              ("• " ++ text)), true)
        else Except.error (PyErr.attributeError "insert_paragraph_after")

/-- A project entry of the JSON data.  `achievements = none` models an
absent key. -/
structure ProjectItem where
  company : String
  role : String
  tasks : List String
  achievements : Option (List String)
  achievements_and_results : List String
  technologies_and_tools : List String
deriving DecidableEq, Repr

/-- `project_item.get('achievements') or
project_item.get('achievements_and_results', [])` (line 2551): an absent
key or a falsy (empty) list falls through to the fallback list. -/
def effectiveAchievements (item : ProjectItem) : List String :=
  match item.achievements with
  | some (a :: rest) => a :: rest
  | _ => item.achievements_and_results

/-- The `fields` dict built by `find_project_block_fields` (line 1934):
paragraph indices for the slots of one project block. -/
structure BlockFields where
  company : Option Nat
  role_label : Option Nat
  role_value : Option Nat
  tasks_label : Option Nat
  tasks_fields : List Nat
  achievements_label : Option Nat
  achievements_fields : List Nat
  tech_label : Option Nat
  tech_value : Option Nat
deriving DecidableEq, Repr

/-- Section 1 of `fill_single_project_block` (lines 2555–2559): rewrite the
company paragraph unless the value is empty or the placeholder. -/
def fillCompanyStep (doc : List Paragraph) (slot : Option Nat)
    (company : String) : Except PyErr (List Paragraph) :=
  match slot with
  | some i =>
    match getParaAt doc i with
    | Except.error e => Except.error e
    | Except.ok p =>
      if company ≠ "" ∧ company ≠ "Место работы / время" then
        Except.ok (updateAt doc i (fun _ =>
          (replaceTextPreservingFormat p (paraText p)
            (uppercaseDurationWords company) true).2))
      else Except.ok doc
  | none => Except.ok doc

/-- The three label sections of `fill_single_project_block` (lines
2561–2565, 2576–2580, 2594–2598) share one shape: ensure the label text is
present, keeping the original font. -/
def fillLabelStep (doc : List Paragraph) (slot : Option Nat)
    (kw lbl : String) : Except PyErr (List Paragraph) :=
  match slot with
  | some i =>
    match getParaAt doc i with
    | Except.error e => Except.error e
    | Except.ok p =>
      if ¬ substrS kw (pyLowerS (paraText p)) then
        Except.ok (updateAt doc i (fun _ =>
          (replaceTextPreservingFormat p (paraText p) lbl false).2))
      else Except.ok doc
  | none => Except.ok doc

/-- The role-value section (lines 2567–2573): the two branches differ only
in the written text; `ensure_runs_not_bold` runs afterwards in both. -/
def fillRoleValueStep (doc : List Paragraph) (slot : Option Nat)
    (role : String) : Except PyErr (List Paragraph) :=
  match slot with
  | some i =>
    match getParaAt doc i with
    | Except.error e => Except.error e
    | Except.ok p =>
      Except.ok (updateAt (updateAt doc i (fun _ =>
        (replaceTextPreservingFormat p (paraText p)
          (if role ≠ "" ∧ role ≠ "Роль:" then role else "") true).2))
        i ensureRunsNotBold)
  | none => Except.ok doc

/-- The bullet sections (lines 2582–2590): normalize, and only a non-empty
result touches the document; the boolean result is discarded. -/
def fillBulletStep (doc : List Paragraph) (indices : List Nat)
    (items : List String) (placeholders : List String) :
    Except PyErr (List Paragraph) :=
  if (normalizeBulletItems items placeholders).isEmpty then Except.ok doc
  else bindE (setBulletListInDocument doc indices
    (normalizeBulletItems items placeholders)) (fun r => Except.ok r.1)

/-- The technologies-value section (lines 2600–2612).  With a non-empty
`real_tech` the source calls `flatten_technology_entries(real_tech)`
(line 2604): that name has no definition anywhere in the module, so
resolution raises `NameError` and nothing after the call can run — there
exists no source for the `ok` arm of the resolution, and it is provably
unreachable (`"flatten_technology_entries" ∉ moduleGlobals`), so it
carries the same raise. -/
def fillTechValueStep (doc : List Paragraph) (slot : Option Nat)
    (technologies : List String) : Except PyErr (List Paragraph) :=
  match slot with
  | some i =>
    match getParaAt doc i with
    | Except.error e => Except.error e
    | Except.ok p =>
      bindE
        (if technologies ≠ [] ∧ technologies ≠ ["Технологии и инструменты"] then
          (if (technologies.filter (fun t =>
                !(t == "Технологии и инструменты")
                  && !(pyStripS t == ""))).isEmpty then
            Except.ok (updateAt doc i (fun _ =>
              (replaceTextPreservingFormat p (paraText p) "" true).2))
          else
            match resolveGlobal "flatten_technology_entries" with
            | Except.error e => Except.error e
            | Except.ok _ =>
              Except.error (PyErr.nameError "flatten_technology_entries"))
        else
          Except.ok (updateAt doc i (fun _ =>
            (replaceTextPreservingFormat p (paraText p) "" true).2)))
        (fun doc1 => Except.ok (updateAt doc1 i ensureRunsNotBold))
  | none => Except.ok doc

/-- `fill_single_project_block(doc, block_fields, project_item)`
(line 2536), as the statement-ordered chain of its sections.  The
`achievements_label` slot is never read by the source function. -/
def fillSingleProjectBlock (doc : List Paragraph) (bf : BlockFields)
    (item : ProjectItem) : Except PyErr (List Paragraph × Bool) :=
  bindE (fillCompanyStep doc bf.company (pyStripS item.company)) fun d1 =>
  bindE (fillLabelStep d1 bf.role_label "роль:" "Роль:") fun d2 =>
  bindE (fillRoleValueStep d2 bf.role_value (pyStripS item.role)) fun d3 =>
  bindE (fillLabelStep d3 bf.tasks_label "задачи:" "Задачи:") fun d4 =>
  bindE (fillBulletStep d4 bf.tasks_fields item.tasks ["Задачи"]) fun d5 =>
  bindE (fillBulletStep d5 bf.achievements_fields (effectiveAchievements item)
    ["Достижения"]) fun d6 =>
  bindE (fillLabelStep d6 bf.tech_label "технологии"
    "Технологии и инструменты:") fun d7 =>
  bindE (fillTechValueStep d7 bf.tech_value item.technologies_and_tools)
    fun d8 =>
  Except.ok (d8, true)

/-- A table cell, a row, a table, and a document holding body paragraphs
and tables. -/
structure Cell where
  paragraphs : List Paragraph
deriving DecidableEq, Repr

structure TableRow where
  cells : List Cell
deriving DecidableEq, Repr

structure Table where
  rows : List TableRow
deriving DecidableEq, Repr

structure DocT where
  paragraphs : List Paragraph
  tables : List Table
deriving DecidableEq, Repr

/-- The `fields` dict of `find_project_block_fields_in_table_row`
(line 2225): `(row, cell)` coordinates instead of paragraph indices. -/
structure TableFields where
  company : Option (Nat × Nat)
  role_label : Option (Nat × Nat)
  role_value : Option (Nat × Nat)
  tasks_label : Option (Nat × Nat)
  tasks_fields : List (Nat × Nat)
  achievements_label : Option (Nat × Nat)
  achievements_fields : List (Nat × Nat)
  tech_label : Option (Nat × Nat)
  tech_value : Option (Nat × Nat)
deriving DecidableEq, Repr

/-- A table block record of `find_all_project_blocks_in_tables`
(`type = 'table'`). -/
structure TableBlockInfo where
  table_idx : Nat
  row_idx : Nat
  fields : TableFields
deriving DecidableEq, Repr

/-- `find_row(keyword)` in `fill_single_column_project_table` (line 2828):
first row whose first cell joins (space-separated) its stripped, lowered
paragraph texts to something containing the keyword; rows without cells
are skipped. -/
def findRowByKeyword (table : Table) (keyword : String) : Option Nat :=
  table.rows.findIdx? (fun r =>
    match r.cells with
    | [] => false
    | c :: _ => substrS (pyLowerS keyword)
        (joinSep " " (c.paragraphs.map (fun p => pyLowerS (pyStripS (paraText p))))))

/-- `get_cell(row_idx)` (line 2838). -/
def getCellOpt (table : Table) (rowIdx : Option Nat) : Option Cell :=
  match rowIdx with
  | none => none
  | some i =>
    match table.rows[i]? with
    | none => none
    | some r => r.cells.head?

/-- `write_label_and_value(paragraph, label_text, value_text)` (line 118):
clear, write the label in the template (first) run formatting, a spacer if
the label does not already end in a space, then the value in the default
font. -/
def writeLabelAndValue (p : Paragraph) (labelText valueText : String) :
    Paragraph :=
  let templateRun := p.runs.head?
  let p1 : Paragraph := ⟨[]⟩
  let p2 :=
    if labelText ≠ "" then
      let p2a := match templateRun with
        | some tr => (⟨p1.runs ++ [cloneRunFormatting tr (mkRun labelText)]⟩ : Paragraph)
        | none => addRunWithDefaultFont p1 labelText
      if labelText.data.getLast? == some ' ' then p2a
      else match templateRun with
        | some tr => (⟨p2a.runs ++ [cloneRunFormatting tr (mkRun " ")]⟩ : Paragraph)
        | none => addRunWithDefaultFont p2a " "
    else p1
  if valueText ≠ "" then addRunWithDefaultFont p2 valueText else p2

/-- `set_label_value(cell, fallback_label, value)` (line 2843), acting on
the cell it got: keep only the first paragraph (an empty cell first gains
an empty one), derive the label from that text up to a colon (else the
fallback), rewrite via `write_label_and_value`. -/
def setLabelValueCell (cell : Cell) (fallbackLabel value : String) : Cell :=
  let paras := if cell.paragraphs.isEmpty then [(⟨[]⟩ : Paragraph)]
    else cell.paragraphs
  let first := paras.headD ⟨[]⟩
  let text := pyStripS (paraText first)
  let labelText := match text.data.findIdx? (fun c => c == ':') with
    | some ci => (⟨text.data.take (ci + 1)⟩ : String)
    | none => fallbackLabel
  ⟨[writeLabelAndValue first labelText (if value ≠ "" then pyStripS value else "")]⟩

/-- `set_labeled_bullet_list(cell, fallback_label, items)` (line 193),
acting on the cell it got. -/
def setLabeledBulletListCell (cell : Cell) (fallbackLabel : String)
    (items : List String) : Cell × Bool :=
  let normalized := normalizeBulletItems items []
  let paras := if cell.paragraphs.isEmpty then [(⟨[]⟩ : Paragraph)]
    else cell.paragraphs
  let labelPara := paras.headD ⟨[]⟩
  let labelRun := labelPara.runs.head?
  let paraTextS := pyStripS (paraText labelPara)
  let labelText := match paraTextS.data.findIdx? (fun c => c == ':') with
    | some ci => (⟨paraTextS.data.take (ci + 1)⟩ : String)
    | none => fallbackLabel
  let newLabel := match labelRun with
    | some lr => (⟨[cloneRunFormatting lr (mkRun labelText)]⟩ : Paragraph)
    | none => addRunWithDefaultFont ⟨[]⟩ labelText
  if normalized.isEmpty then (⟨[newLabel]⟩, false)
  else (⟨newLabel :: normalized.map (fun text =>
      addRunWithDefaultFont (configureBulletParagraph ⟨[]⟩) ("• " ++ text))⟩,
    true)

/-- Write an updated first cell back into row `i` of a table. -/
def updateFirstCellAt (table : Table) (i : Nat) (f : Cell → Cell) : Table :=
  ⟨updateAt table.rows i (fun r =>
    match r.cells with
    | [] => r
    | c :: rest => ⟨f c :: rest⟩)⟩

/-- `fill_single_column_project_table(table, project_item)` (line 2826):
five keyword-located row updates in statement order. -/
def fillSingleColumnProjectTable (table : Table) (item : ProjectItem) :
    Table × Bool :=
  let companyValue := pyStripS item.company
  let t1 :=
    if companyValue ≠ "" ∧ companyValue ≠ "Место работы / время" then
      match findRowByKeyword table "место работы" with
      | some i =>
        match getCellOpt table (some i) with
        | some cell =>
          if cell.paragraphs.isEmpty then table
          else updateFirstCellAt table i (fun c =>
            ⟨updateAt c.paragraphs 0 (fun p =>
              (replaceTextPreservingFormat p (paraText p)
                (uppercaseDurationWords companyValue) true).2)⟩)
        | none => table
      | none => table
    else table
  let t2 :=
    match findRowByKeyword t1 "роль" with
    | some i =>
      match getCellOpt t1 (some i) with
      | some cell => updateFirstCellAt t1 i (fun _ =>
          setLabelValueCell cell "Роль:" (pyStripS item.role))
      | none => t1
    | none => t1
  let t3 :=
    let tasksItems := normalizeBulletItems item.tasks ["Задачи"]
    match findRowByKeyword t2 "задачи" with
    | some i =>
      match getCellOpt t2 (some i) with
      | some cell => updateFirstCellAt t2 i (fun _ =>
          (setLabeledBulletListCell cell "Задачи:" tasksItems).1)
      | none => t2
    | none => t2
  let t4 :=
    let achItems := normalizeBulletItems (effectiveAchievements item)
      ["Достижения"]
    match findRowByKeyword t3 "достижения" with
    | some i =>
      match getCellOpt t3 (some i) with
      | some cell => updateFirstCellAt t3 i (fun _ =>
          (setLabeledBulletListCell cell "Достижения:" achItems).1)
      | none => t3
    | none => t3
  let t5 :=
    let techItems := normalizeBulletItems item.technologies_and_tools
      ["Технологии и инструменты"]
    match findRowByKeyword t4 "технологии" with
    | some i =>
      match getCellOpt t4 (some i) with
      | some cell => updateFirstCellAt t4 i (fun _ =>
          setLabelValueCell cell "Технологии и инструменты:"
            (joinSep "; " techItems))
      | none => t4
    | none => t4
  (t5, true)

/-- `fill_single_project_block_in_table(doc, block_info, project_item)`
(line 2616).  Fetching the table can raise `IndexError`; a table whose
rows all have exactly one cell is delegated to
`fill_single_column_project_table` (line 2637); otherwise the first debug
`print` (line 2644) reads `achievements` — a name this function never
binds (unlike `fill_single_project_block`) and no module global — so the
multi-column path raises `NameError` before touching any field, and the
rest of the function (its `flatten_technology_entries` call sites at lines
2781, 2794 and 2805 included) is unreachable; the `ok` arm of the
resolution is provably dead and carries the same raise. -/
def fillSingleProjectBlockInTable (doc : DocT) (bi : TableBlockInfo)
    (item : ProjectItem) : Except PyErr (DocT × Bool) :=
  match doc.tables[bi.table_idx]? with
  | none => Except.error PyErr.indexError
  | some table =>
    if table.rows.all (fun r => r.cells.length == 1) then
      let newTables := updateAt doc.tables bi.table_idx
        (fun _ => (fillSingleColumnProjectTable table item).1)
      Except.ok ({ doc with tables := newTables },
        (fillSingleColumnProjectTable table item).2)
    else
      match resolveGlobal "achievements" with
      | Except.error e => Except.error e
      | Except.ok _ => Except.error (PyErr.nameError "achievements")

/-- A discovered project block: plain-paragraph
(`find_all_project_blocks`, carrying its `fields`) or table
(`find_all_project_blocks_in_tables`). -/
inductive ProjectBlock where
  | para (fields : BlockFields)
  | table (info : TableBlockInfo)
deriving DecidableEq, Repr

/-- The `real_projects` filter of `fill_project_experience_by_header`
(lines 3057–3068): placeholder-free company and role, or real tasks, or
real technologies. -/
def isRealProject (p : ProjectItem) : Bool :=
  let company := pyStripS p.company
  let role := pyStripS p.role
  if !(["Место работы / время", ""].contains company)
      && !(["Роль", ""].contains role) then true
  else if !(p.tasks.isEmpty) && !(p.tasks == ["Задачи"]) then true
  else if !(p.technologies_and_tools.isEmpty)
      && !(p.technologies_and_tools == ["Технологии и инструменты"]) then true
  else false

def filterRealProjects (ps : List ProjectItem) : List ProjectItem :=
  ps.filter isRealProject

/-- The pass-2 loop of `fill_project_experience_by_header` (lines
3117–3131): blocks are zipped index-for-index against the real projects,
the counter increments once per filled block, and a raised exception
propagates out of the whole function. -/
def fillBlocksLoop (projects : List ProjectItem) :
    DocT → List ProjectBlock → Nat → Nat → Except PyErr (DocT × Nat)
  | doc, [], _, count => Except.ok (doc, count)
  | doc, b :: rest, idx, count =>
    if idx < projects.length then
      match b with
      | ProjectBlock.para bf =>
        match fillSingleProjectBlock doc.paragraphs bf
            (projects.getD idx ⟨"", "", [], none, [], []⟩) with
        | Except.error e => Except.error e
        | Except.ok (ps, _) =>
          fillBlocksLoop projects { doc with paragraphs := ps } rest
            (idx + 1) (count + 1)
      | ProjectBlock.table bi =>
        match fillSingleProjectBlockInTable doc bi
            (projects.getD idx ⟨"", "", [], none, [], []⟩) with
        | Except.error e => Except.error e
        | Except.ok (d2, _) =>
          fillBlocksLoop projects d2 rest (idx + 1) (count + 1)
    else fillBlocksLoop projects doc rest (idx + 1) count

/-- Pass 2 of `fill_project_experience_by_header` (lines 3056–3138), with
block discovery abstracted by `existingBlocks`: filter to real projects
(none ⇒ 0), no discovered blocks ⇒ 0, else the zip loop; creating new
blocks for excess projects is explicitly not implemented (the `TODO` at
line 3136 only prints). -/
def fillProjectBlocksPass2 (doc : DocT) (existingBlocks : List ProjectBlock)
    (projectExperience : List ProjectItem) : Except PyErr (DocT × Nat) :=
  if (filterRealProjects projectExperience).isEmpty then Except.ok (doc, 0)
  else if existingBlocks.isEmpty then Except.ok (doc, 0)
  else fillBlocksLoop (filterRealProjects projectExperience) doc
    existingBlocks 0 0

/-- `true` exactly when the computation raised nothing. -/
def isOkE {α : Type} : Except PyErr α → Bool
  | Except.ok _ => true
  | Except.error _ => false

/-- The filled-block count of a completed pass-2 run. -/
def resultCount : Except PyErr (DocT × Nat) → Option Nat
  | Except.ok (_, n) => some n
  | Except.error _ => none

/-- A slot index that will not raise `IndexError` on a document of `len`
paragraphs. -/
def slotInRange (slot : Option Nat) (len : Nat) : Bool :=
  match slot with
  | some j => decide (j < len)
  | none => true

/-- `false` only for an in-range table whose rows are not all
single-cell. -/
def tableIsSingleColumnAt (tables : List Table) (i : Nat) : Bool :=
  match tables[i]? with
  | some t => t.rows.all (fun r => r.cells.length == 1)
  | none => true

/-- The C3 failing template: two paragraph project blocks, each with a
discovered technologies slot. -/
def c3Doc : DocT :=
  ⟨[⟨[mkRun "Место работы / время"]⟩, ⟨[mkRun "Роль:"]⟩, ⟨[mkRun "Задачи"]⟩,
    ⟨[mkRun "Технологии и инструменты:"]⟩,
    ⟨[mkRun "Место работы / время"]⟩, ⟨[mkRun "Роль:"]⟩, ⟨[mkRun "Задачи"]⟩,
    ⟨[mkRun "Технологии и инструменты:"]⟩], []⟩

def c3BlockA : ProjectBlock :=
  ProjectBlock.para ⟨some 0, some 1, some 1, some 2, [], none, [], some 3, some 3⟩

def c3BlockB : ProjectBlock :=
  ProjectBlock.para ⟨some 4, some 5, some 5, some 6, [], none, [], some 7, some 7⟩

/-- Five data items, each carrying one real technology entry. -/
def c3Items : List ProjectItem :=
  List.replicate 5 ⟨"", "", [], none, [], ["Python"]⟩

/-- Five placeholder-free items with no list data: every block fill is
exception-free. -/
def c3OkItems : List ProjectItem :=
  List.replicate 5 ⟨"Компания", "Разработчик", [], none, [], []⟩

/-- C10 witness inputs: a one-paragraph document whose block has only the
technologies slot, and a document holding one two-cell (multi-column)
table. -/
def c10Doc : List Paragraph := [⟨[mkRun "Технологии и инструменты:"]⟩]

def c10Bf : BlockFields := ⟨none, none, none, none, [], none, [], none, some 0⟩

def c10Item : ProjectItem := ⟨"", "", [], none, [], ["Python"]⟩

def c10TableDoc : DocT := ⟨[], [⟨[⟨[⟨[]⟩, ⟨[]⟩]⟩]⟩]⟩

def c10TableInfo : TableBlockInfo :=
  ⟨0, 0, ⟨none, none, none, none, [], none, [], none, none⟩⟩

/-! ## Lemmas and theorems for claims C4 and C7 -/

theorem experienceLoopStep_eq (today : PDate) (total : Nat) (item : WorkItem) :
    experienceLoopStep today total item = total + specContribMonths today item := by
  unfold experienceLoopStep specContribMonths
  rcases h : parsePeriodRange today item.period with ⟨s, e⟩
  cases s with
  | none => simp
  | some sd =>
    simp only
    split
    · next hneg =>
      rw [Int.toNat_of_nonpos (le_of_lt hneg)]
      omega
    · rfl

theorem calculate_foldl_eq (today : PDate) :
    ∀ (wx : List WorkItem) (acc : Nat),
      wx.foldl (experienceLoopStep today) acc
        = acc + (wx.map (specContribMonths today)).sum
  | [], acc => by simp
  | i :: rest, acc => by
    simp only [List.foldl_cons, List.map_cons, List.sum_cons, experienceLoopStep_eq]
    rw [calculate_foldl_eq today rest (acc + specContribMonths today i)]
    omega

theorem formatExperienceTotal_pos (t : Nat) (h : t ≠ 0) :
    formatExperienceTotal t = specRenderDuration t := by
  unfold formatExperienceTotal specRenderDuration ruPlural
  rw [if_neg h]
  by_cases hy : t / 12 = 0 <;> by_cases hm : t % 12 = 0
  · exfalso; omega
  all_goals simp only [hy, hm, ne_eq, not_true_eq_false, not_false_eq_true,
    if_true, if_false, ite_true, ite_false, List.nil_append, List.append_nil,
    List.singleton_append, List.cons_ne_nil, reduceCtorEq]

/-- C4: `calculate_experience_months` sums the clamped per-entry month
counts — `(end.year − start.year) × 12 + (end.month − start.month)`, zero for
a negative interval, zero (skipped) when the start date cannot be parsed —
and `format_experience_summary` renders the total as years plus months with
the three-way Slavic plural rule, returning the fixed string
`МЕНЕЕ 1 МЕСЯЦА` whenever the total is zero, in particular for an empty
entry list. -/
theorem c4_experience_aggregation (today : PDate) (wx : List WorkItem) :
    calculateExperienceMonths today wx = (wx.map (specContribMonths today)).sum
    ∧ (calculateExperienceMonths today wx = 0 →
        formatExperienceSummary today wx = "МЕНЕЕ 1 МЕСЯЦА")
    ∧ (calculateExperienceMonths today wx ≠ 0 →
        formatExperienceSummary today wx
          = specRenderDuration (calculateExperienceMonths today wx))
    ∧ formatExperienceSummary today [] = "МЕНЕЕ 1 МЕСЯЦА" := by
  refine ⟨?_, ?_, ?_, ?_⟩
  · unfold calculateExperienceMonths
    rw [calculate_foldl_eq today wx 0]
    omega
  · intro h
    unfold formatExperienceSummary
    rw [h]
    rfl
  · intro h
    unfold formatExperienceSummary
    exact formatExperienceTotal_pos _ h
  · rfl

/-- Witness for C4 at the spec's own example, `Январь 2020 — Март 2020`
evaluated with a fixed today: the total is the nonzero 2, and the summary is
the paucal form `2 МЕСЯЦА`. -/
theorem c4_experience_aggregation_witness :
    calculateExperienceMonths ⟨2021, 1, 10⟩
        [⟨"", "", "Январь 2020 — Март 2020", [], []⟩] ≠ 0
    ∧ formatExperienceSummary ⟨2021, 1, 10⟩
        [⟨"", "", "Январь 2020 — Март 2020", [], []⟩]
      = specRenderDuration (calculateExperienceMonths ⟨2021, 1, 10⟩
          [⟨"", "", "Январь 2020 — Март 2020", [], []⟩])
    ∧ formatExperienceSummary ⟨2021, 1, 10⟩
        [⟨"", "", "Январь 2020 — Март 2020", [], []⟩] = "2 МЕСЯЦА" :=
  ⟨by decide,
   (c4_experience_aggregation ⟨2021, 1, 10⟩
     [⟨"", "", "Январь 2020 — Март 2020", [], []⟩]).2.2.1 (by decide),
   by decide⟩

theorem containsCurrentTerm_nil : containsCurrentTerm [] = false := by decide

/-- C7: each period token is parsed by locating a `19xx`/`20xx` year and,
independently, the first matching month name of the bilingual `MONTHS_MAP`
(January when none matches); a token containing a recognized ongoing phrase
resolves to the first day of the current month; and a period with no end
token after the dash split gets today as its end date. -/
theorem c7_period_token_parsing (today : PDate) (s : String) :
    (containsCurrentTerm (pyLower (pyStrip s.data)) = true →
       parseSingleDate today s = some ⟨today.year, today.month, 1⟩)
    ∧ (containsCurrentTerm (pyLower (pyStrip s.data)) = false →
       findYearScan (pyLower (pyStrip s.data)) = none →
       parseSingleDate today s = none)
    ∧ (∀ y, containsCurrentTerm (pyLower (pyStrip s.data)) = false →
       findYearScan (pyLower (pyStrip s.data)) = some y →
       (∀ p ∈ MONTHS_MAP, substrInL p.1.data (pyLower (pyStrip s.data)) = false) →
       parseSingleDate today s = some ⟨y, 1, 1⟩)
    ∧ (∀ y nm m, containsCurrentTerm (pyLower (pyStrip s.data)) = false →
       findYearScan (pyLower (pyStrip s.data)) = some y →
       MONTHS_MAP.find? (fun p => substrInL p.1.data (pyLower (pyStrip s.data)))
         = some (nm, m) →
       parseSingleDate today s = some ⟨y, m, 1⟩)
    ∧ (s ≠ "" → periodEndPart s = [] → (parsePeriodRange today s).2 = some today) := by
  have hnil : pyLower (pyStrip (([] : List Char))) = [] := rfl
  refine ⟨?_, ?_, ?_, ?_, ?_⟩
  · intro h
    unfold parseSingleDate parseSingleDateL
    by_cases hs : s.data = []
    · rw [hs, hnil] at h
      rw [containsCurrentTerm_nil] at h
      exact absurd h (by simp)
    · have hv : pyLower (pyStrip s.data) ≠ [] := by
        intro hv
        rw [hv, containsCurrentTerm_nil] at h
        exact absurd h (by simp)
      simp only [hs, if_false, hv, h, if_true, ite_false, ite_true]
  · intro hterm hyear
    unfold parseSingleDate parseSingleDateL
    by_cases hs : s.data = []
    · simp [hs]
    · by_cases hv : pyLower (pyStrip s.data) = []
      · simp only [hs, if_false, hv, if_true, ite_false, ite_true]
      · simp only [hs, if_false, hv, hterm, hyear, ite_false, ite_true, Bool.false_eq_true]
  · intro y hterm hyear hmonths
    unfold parseSingleDate parseSingleDateL
    by_cases hs : s.data = []
    · rw [hs, hnil] at hyear
      exact absurd hyear (by simp [findYearScan])
    · have hv : pyLower (pyStrip s.data) ≠ [] := by
        intro hv
        rw [hv] at hyear
        exact absurd hyear (by simp [findYearScan])
      have hfm : firstMonthMatch (pyLower (pyStrip s.data)) = 1 := by
        unfold firstMonthMatch
        rw [List.find?_eq_none.mpr]
        intro p hp
        simp [hmonths p hp]
      simp only [hs, if_false, hv, hterm, hyear, hfm, ite_false, ite_true, Bool.false_eq_true]
  · intro y nm m hterm hyear hfind
    unfold parseSingleDate parseSingleDateL
    by_cases hs : s.data = []
    · rw [hs, hnil] at hyear
      exact absurd hyear (by simp [findYearScan])
    · have hv : pyLower (pyStrip s.data) ≠ [] := by
        intro hv
        rw [hv] at hyear
        exact absurd hyear (by simp [findYearScan])
      have hfm : firstMonthMatch (pyLower (pyStrip s.data)) = m := by
        unfold firstMonthMatch
        rw [hfind]
      simp only [hs, if_false, hv, hterm, hyear, hfm, ite_false, ite_true, Bool.false_eq_true]
  · intro hs hend
    unfold parsePeriodRange
    simp only [hs, if_false, hend, ne_eq, not_true_eq_false, ite_false, ite_true]

/-- Witness for C7: the ongoing phrase, the month default, the first-match
month rule and the missing-end default, each at a concrete input. -/
theorem c7_period_token_parsing_witness :
    parseSingleDate ⟨2024, 6, 15⟩ "настоящее время" = some ⟨2024, 6, 1⟩
    ∧ parseSingleDate ⟨2024, 6, 15⟩ " 2022 " = some ⟨2022, 1, 1⟩
    ∧ parseSingleDate ⟨2024, 6, 15⟩ "Март 2020" = some ⟨2020, 3, 1⟩
    ∧ (parsePeriodRange ⟨2024, 6, 15⟩ "Январь 2019").2 = some ⟨2024, 6, 15⟩ :=
  ⟨(c7_period_token_parsing ⟨2024, 6, 15⟩ "настоящее время").1 (by decide),
   (c7_period_token_parsing ⟨2024, 6, 15⟩ " 2022 ").2.2.1 2022 (by decide) (by decide)
     (by decide),
   (c7_period_token_parsing ⟨2024, 6, 15⟩ "Март 2020").2.2.2.1 2020 "март" 3
     (by decide) (by decide) (by decide),
   (c7_period_token_parsing ⟨2024, 6, 15⟩ "Январь 2019").2.2.2.2
     (by decide) (by decide)⟩

/-! ## Lemmas and the theorem for claim C8 -/

theorem digitVal_digitChar (n : Nat) (h : n < 10) : digitVal (digitChar n) = n := by
  interval_cases n <;> decide

theorem digitChar_isDigit (n : Nat) (h : n < 10) : (digitChar n).isDigit = true := by
  interval_cases n <;> decide

theorem digitChar_not_ws (n : Nat) (h : n < 10) : isWsChar (digitChar n) = false := by
  interval_cases n <;> decide

theorem digitChar_lower (n : Nat) (h : n < 10) : pyLowerChar (digitChar n) = digitChar n := by
  interval_cases n <;> decide

theorem startsWith_nodigit_append : ∀ (pat xs ds : List Char),
    (∀ c ∈ ds, c.isDigit = true) → (∀ c ∈ pat, c.isDigit = false) →
    startsWithL pat (xs ++ ds) = startsWithL pat xs
  | [], _, _, _, _ => rfl
  | _ :: _, [], [], _, _ => rfl
  | p :: ps, [], d :: _, hds, hpat => by
    have hd : d.isDigit = true := hds d (by simp)
    have hp : p.isDigit = false := hpat p (by simp)
    have hne : p ≠ d := by intro he; rw [he, hd] at hp; exact Bool.noConfusion hp
    simp [startsWithL, hne]
  | p :: ps, x :: xs', ds, hds, hpat => by
    show (decide (p = x) && startsWithL ps (xs' ++ ds))
        = (decide (p = x) && startsWithL ps xs')
    rw [startsWith_nodigit_append ps xs' ds hds (fun c hc => hpat c (by simp [hc]))]

theorem substr_digits_false : ∀ (pat ds : List Char), pat ≠ [] →
    (∀ c ∈ ds, c.isDigit = true) → (∀ c ∈ pat, c.isDigit = false) →
    substrInL pat ds = false
  | [], _, hne, _, _ => absurd rfl hne
  | p :: ps, [], _, _, _ => rfl
  | p :: ps, d :: ds', hne, hds, hpat => by
    have hd : d.isDigit = true := hds d (by simp)
    have hp : p.isDigit = false := hpat p (by simp)
    have hpd : p ≠ d := by intro he; rw [he, hd] at hp; exact Bool.noConfusion hp
    have hrec := substr_digits_false (p :: ps) ds' hne (fun c hc => hds c (by simp [hc])) hpat
    simp [substrInL, startsWithL, hpd, hrec]

theorem substr_nodigit_append : ∀ (pat xs ds : List Char), pat ≠ [] →
    (∀ c ∈ ds, c.isDigit = true) → (∀ c ∈ pat, c.isDigit = false) →
    substrInL pat (xs ++ ds) = substrInL pat xs
  | pat, [], ds, hne, hds, hpat => by
    rw [List.nil_append, substr_digits_false pat ds hne hds hpat]
    cases pat with
    | nil => exact absurd rfl hne
    | cons p ps => rfl
  | pat, x :: xs', ds, hne, hds, hpat => by
    have hsw : startsWithL pat (x :: (xs' ++ ds)) = startsWithL pat (x :: xs') := by
      have := startsWith_nodigit_append pat (x :: xs') ds hds hpat
      simpa using this
    show (startsWithL pat (x :: (xs' ++ ds)) || substrInL pat (xs' ++ ds))
        = (startsWithL pat (x :: xs') || substrInL pat xs')
    rw [hsw, substr_nodigit_append pat xs' ds hne hds hpat]

theorem yearAt_head_ne (x : Char) (h1 : x ≠ '1') (h2 : x ≠ '2') :
    ∀ l : List Char, yearAt (x :: l) = none
  | [] => rfl
  | [_] => rfl
  | [_, _] => rfl
  | _ :: _ :: _ :: _ => by simp [yearAt, h1, h2]

theorem findYearScan_skip : ∀ (xs rest : List Char),
    (∀ c ∈ xs, c ≠ '1' ∧ c ≠ '2') → findYearScan (xs ++ rest) = findYearScan rest
  | [], _, _ => rfl
  | x :: xs', rest, h => by
    have hx := h x (by simp)
    show (match yearAt (x :: (xs' ++ rest)) with
          | some y => some y
          | none => findYearScan (xs' ++ rest)) = findYearScan rest
    rw [yearAt_head_ne x hx.1 hx.2]
    exact findYearScan_skip xs' rest (fun c hc => h c (by simp [hc]))

theorem yearAt_digits20 (a b : Nat) (ha : a < 10) (hb : b < 10) :
    yearAt [digitChar 2, digitChar 0, digitChar a, digitChar b]
      = some (2000 + 10 * a + b) := by
  have h3 := digitChar_isDigit a ha
  have h4 := digitChar_isDigit b hb
  have v3 := digitVal_digitChar a ha
  have v4 := digitVal_digitChar b hb
  rw [show digitChar 2 = '2' from by decide, show digitChar 0 = '0' from by decide]
  simp only [yearAt, h3, h4, v3, v4]
  rw [show digitVal '2' = 2 from by decide, show digitVal '0' = 0 from by decide]
  norm_num

theorem yearAt_digits19 (a b : Nat) (ha : a < 10) (hb : b < 10) :
    yearAt [digitChar 1, digitChar 9, digitChar a, digitChar b]
      = some (1900 + 10 * a + b) := by
  have h3 := digitChar_isDigit a ha
  have h4 := digitChar_isDigit b hb
  have v3 := digitVal_digitChar a ha
  have v4 := digitVal_digitChar b hb
  rw [show digitChar 1 = '1' from by decide, show digitChar 9 = '9' from by decide]
  simp only [yearAt, h3, h4, v3, v4]
  rw [show digitVal '1' = 1 from by decide, show digitVal '9' = 9 from by decide]
  norm_num

theorem findYearScan_yearString (y : Nat) (h1 : 1900 ≤ y) (h2 : y ≤ 2099) :
    findYearScan (yearString y) = some y := by
  rcases le_or_lt 2000 y with hy | hy
  · have e1 : y / 1000 % 10 = 2 := by omega
    have e2 : y / 100 % 10 = 0 := by omega
    show (match yearAt (yearString y) with
          | some z => some z
          | none => findYearScan (yearString y).tail) = some y
    unfold yearString
    rw [e1, e2, yearAt_digits20 _ _ (by omega) (by omega)]
    have hv : 2000 + 10 * (y / 10 % 10) + y % 10 = y := by omega
    show some (2000 + 10 * (y / 10 % 10) + y % 10) = some y
    rw [hv]
  · have e1 : y / 1000 % 10 = 1 := by omega
    have e2 : y / 100 % 10 = 9 := by omega
    show (match yearAt (yearString y) with
          | some z => some z
          | none => findYearScan (yearString y).tail) = some y
    unfold yearString
    rw [e1, e2, yearAt_digits19 _ _ (by omega) (by omega)]
    have hv : 1900 + 10 * (y / 10 % 10) + y % 10 = y := by omega
    show some (1900 + 10 * (y / 10 % 10) + y % 10) = some y
    rw [hv]

theorem find?_pred_congr {α : Type} (p q : α → Bool) :
    ∀ l : List α, (∀ a ∈ l, p a = q a) → l.find? p = l.find? q
  | [], _ => rfl
  | a :: t, h => by
    have ha : p a = q a := h a (by simp)
    by_cases hq : q a = true
    · rw [List.find?_cons_of_pos _ (ha.trans hq), List.find?_cons_of_pos _ hq]
    · have hp : ¬p a = true := by rw [ha]; exact hq
      rw [List.find?_cons_of_neg _ hp, List.find?_cons_of_neg _ hq]
      exact find?_pred_congr p q t (fun b hb => h b (by simp [hb]))

theorem trimLeft_of_head (l r : List Char) (hne : l ≠ [])
    (hh : isWsChar (l.headD 'x') = false) : trimLeftWs (l ++ r) = l ++ r := by
  cases l with
  | nil => exact absurd rfl hne
  | cons a l' =>
    simp only [List.headD_cons] at hh
    simp [trimLeftWs, List.dropWhile_cons, hh]

theorem trimRight_snoc (l : List Char) (c : Char) (hc : isWsChar c = false) :
    trimRightWs (l ++ [c]) = l ++ [c] := by
  unfold trimRightWs
  rw [List.reverse_append]
  simp [List.dropWhile_cons, hc]

theorem months_facts : ∀ p ∈ MONTHS_MAP, p.1.data ≠ [] ∧
    isWsChar (p.1.data.headD 'x') = false ∧ pyLower p.1.data = p.1.data ∧
    (∀ c ∈ p.1.data, c.isDigit = false) ∧ (∀ c ∈ p.1.data, c ≠ '1' ∧ c ≠ '2') := by
  decide

theorem terms_facts : ∀ t ∈ CURRENT_PERIOD_TERMS, t.data ≠ [] ∧
    (∀ c ∈ t.data, c.isDigit = false) := by
  decide

theorem terms_not_in_month_space : ∀ t ∈ CURRENT_PERIOD_TERMS, ∀ p ∈ MONTHS_MAP,
    substrInL t.data (p.1.data ++ [' ']) = false := by
  decide

theorem months_find_self : ∀ p ∈ MONTHS_MAP,
    (MONTHS_MAP.find? (fun q => substrInL q.1.data (p.1.data ++ [' ']))).map
      (fun q => q.2) = some p.2 := by
  decide

/-- C8: rendering any `(year, month)` with `1900 ≤ year ≤ 2099` as a
canonical `"Month Year"` string — any month name of the bilingual table
followed by the 4-digit year — and reparsing with `_parse_single_date`
recovers the same `(year, month)` as `date(year, month, 1)`. -/
theorem c8_canonical_roundtrip (today : PDate) (y : Nat) (h1 : 1900 ≤ y)
    (h2 : y ≤ 2099) (nm : String) (m : Nat) (hmem : (nm, m) ∈ MONTHS_MAP) :
    parseSingleDate today (canonicalMonthYear nm y) = some ⟨y, m, 1⟩ := by
  obtain ⟨hne, hhead, hlow, hnodig, hne12⟩ := months_facts (nm, m) hmem
  have hdig : ∀ c ∈ yearString y, c.isDigit = true := by
    intro c hc
    unfold yearString at hc
    simp only [List.mem_cons, List.mem_singleton, List.not_mem_nil, or_false] at hc
    rcases hc with h | h | h | h <;> rw [h] <;> exact digitChar_isDigit _ (by omega)
  have hsplit : nm.data ++ ' ' :: yearString y = (nm.data ++ [' ']) ++ yearString y := by
    simp
  have hsnoc : nm.data ++ ' ' :: yearString y
      = (nm.data ++ ' ' :: [digitChar (y / 1000 % 10), digitChar (y / 100 % 10),
          digitChar (y / 10 % 10)]) ++ [digitChar (y % 10)] := by
    simp [yearString]
  have hstrip : pyStrip (nm.data ++ ' ' :: yearString y) = nm.data ++ ' ' :: yearString y := by
    unfold pyStrip
    rw [trimLeft_of_head _ _ hne hhead, hsnoc,
      trimRight_snoc _ _ (digitChar_not_ws _ (by omega))]
  have hlowys : List.map pyLowerChar (yearString y) = yearString y := by
    unfold yearString
    simp only [List.map_cons, List.map_nil]
    rw [digitChar_lower _ (by omega), digitChar_lower _ (by omega),
      digitChar_lower _ (by omega), digitChar_lower _ (by omega)]
  have hlowv : pyLower (nm.data ++ ' ' :: yearString y) = nm.data ++ ' ' :: yearString y := by
    unfold pyLower at hlow ⊢
    rw [List.map_append, hlow, List.map_cons, hlowys,
      show pyLowerChar ' ' = ' ' from by decide]
  have hterm : containsCurrentTerm (nm.data ++ ' ' :: yearString y) = false := by
    unfold containsCurrentTerm
    rw [List.any_eq_false]
    intro t ht
    obtain ⟨htne, htnodig⟩ := terms_facts t ht
    have hx : substrInL t.data (nm.data ++ [' ']) = false :=
      terms_not_in_month_space t ht (nm, m) hmem
    rw [hsplit, substr_nodigit_append t.data _ _ htne hdig htnodig, hx]
    exact Bool.false_ne_true
  have hyear : findYearScan (nm.data ++ ' ' :: yearString y) = some y := by
    rw [hsplit, findYearScan_skip _ _ ?_]
    · exact findYearScan_yearString y h1 h2
    · intro c hc
      rcases List.mem_append.mp hc with h | h
      · exact hne12 c h
      · simp only [List.mem_singleton] at h
        rw [h]
        exact ⟨by decide, by decide⟩
  have hmonth : firstMonthMatch (nm.data ++ ' ' :: yearString y) = m := by
    unfold firstMonthMatch
    rw [find?_pred_congr _ (fun q => substrInL q.1.data (nm.data ++ [' '])) MONTHS_MAP ?_]
    · have hf : (MONTHS_MAP.find? (fun q => substrInL q.1.data (nm.data ++ [' ']))).map
          (fun q => q.2) = some m := months_find_self (nm, m) hmem
      cases hr : MONTHS_MAP.find? (fun q => substrInL q.1.data (nm.data ++ [' '])) with
      | none => rw [hr] at hf; exact absurd hf (by simp)
      | some q =>
        rw [hr] at hf
        simp only [Option.map_some', Option.some_inj] at hf
        exact hf
    · intro q hq
      obtain ⟨hqne, _, _, hqnodig, _⟩ := months_facts q hq
      rw [hsplit]
      exact substr_nodigit_append q.1.data _ _ hqne hdig hqnodig
  have hdata : (canonicalMonthYear nm y).data = nm.data ++ ' ' :: yearString y := rfl
  have hvne : nm.data ++ ' ' :: yearString y ≠ [] := by
    cases h : nm.data with
    | nil => exact absurd h hne
    | cons a l => simp [h]
  unfold parseSingleDate parseSingleDateL
  rw [hdata]
  simp only [hvne, if_false, hstrip, hlowv, hterm, hyear, hmonth,
    Bool.false_eq_true, ite_false, ite_true]

/-- Witness for C8 at a concrete pair: July 1987 through the genitive
Russian month name. -/
theorem c8_canonical_roundtrip_witness :
    parseSingleDate ⟨2024, 1, 1⟩ (canonicalMonthYear "июля" 1987)
      = some ⟨1987, 7, 1⟩ :=
  c8_canonical_roundtrip ⟨2024, 1, 1⟩ 1987 (by decide) (by decide) "июля" 7 (by decide)

/-! ## Lemmas and the theorem for claim C2 -/

theorem option_match_self {α : Type} (o : Option α) :
    (match o with | some x => some x | none => o) = o := by
  cases o <;> rfl

theorem applyCaptured_preserved (n : Option String) (s : Option Nat)
    (b i u : Option Bool) (c : Option Nat) (t : Run) :
    (applyCapturedFormatting n s b i u c t).text = t.text
    ∧ (applyCapturedFormatting n s b i u c t).bold
        = (match b with | some x => some x | none => t.bold)
    ∧ (applyCapturedFormatting n s b i u c t).italic
        = (match i with | some x => some x | none => t.italic)
    ∧ (applyCapturedFormatting n s b i u c t).underline
        = (match u with | some x => some x | none => t.underline)
    ∧ (applyCapturedFormatting n s b i u c t).colorRgb
        = (match c with | some x => some x | none => t.colorRgb) := by
  unfold applyCapturedFormatting
  cases n <;> cases s <;> cases b <;> cases i <;> cases u <;> cases c <;>
    refine ⟨?_, ?_, ?_, ?_, ?_⟩ <;> dsimp only <;>
    first | rfl | (split_ifs <;> rfl)

theorem applyDefaultFont_preserved (r : Run) :
    (applyDefaultFont r).text = r.text ∧ (applyDefaultFont r).bold = r.bold
    ∧ (applyDefaultFont r).italic = r.italic
    ∧ (applyDefaultFont r).underline = r.underline
    ∧ (applyDefaultFont r).colorRgb = r.colorRgb :=
  ⟨rfl, rfl, rfl, rfl, rfl⟩

/-- C2: when `old_text` is absent from the paragraph's concatenated text the
call returns `False` and the paragraph is untouched; otherwise the paragraph
becomes a single run holding the full text with `old_text` replaced by
`new_text`, and that run's bold, italic, underline and explicit RGB color
equal those of the original first run, whatever combination of them was set. -/
theorem c2_replace_text_preserving_format (p : Paragraph) (old new : String) :
    (substrS old (paraText p) = false →
      replaceTextPreservingFormat p old new true = (false, p))
    ∧ (substrS old (paraText p) = true →
      (replaceTextPreservingFormat p old new true).1 = true
      ∧ ∃ r, (replaceTextPreservingFormat p old new true).2.runs = [r]
          ∧ r.text = pyReplace (paraText p) old new
          ∧ ∀ r0 rs, p.runs = r0 :: rs →
              r.bold = r0.bold ∧ r.italic = r0.italic
              ∧ r.underline = r0.underline ∧ r.colorRgb = r0.colorRgb) := by
  constructor
  · intro h
    unfold replaceTextPreservingFormat
    split
    · next hcond => rw [h] at hcond; exact Bool.noConfusion hcond
    · rfl
  · intro h
    unfold replaceTextPreservingFormat
    rw [if_pos h]
    refine ⟨rfl, ?_⟩
    refine ⟨_, rfl, ?_, ?_⟩
    · split
      · rw [(applyDefaultFont_preserved _).1, (applyCaptured_preserved _ _ _ _ _ _ _).1]
      · rw [(applyCaptured_preserved _ _ _ _ _ _ _).1]
    · intro r0 rs hr
      rw [hr]
      dsimp only
      refine ⟨?_, ?_, ?_, ?_⟩
      · split
        · rw [(applyDefaultFont_preserved _).2.1, (applyCaptured_preserved _ _ _ _ _ _ _).2.1]
          cases hcb : r0.bold <;> rfl
        · rw [(applyCaptured_preserved _ _ _ _ _ _ _).2.1]
          cases hcb : r0.bold <;> rfl
      · split
        · rw [(applyDefaultFont_preserved _).2.2.1,
            (applyCaptured_preserved _ _ _ _ _ _ _).2.2.1]
          cases hcb : r0.italic <;> rfl
        · rw [(applyCaptured_preserved _ _ _ _ _ _ _).2.2.1]
          cases hcb : r0.italic <;> rfl
      · split
        · rw [(applyDefaultFont_preserved _).2.2.2.1,
            (applyCaptured_preserved _ _ _ _ _ _ _).2.2.2.1]
          cases hcb : r0.underline <;> rfl
        · rw [(applyCaptured_preserved _ _ _ _ _ _ _).2.2.2.1]
          cases hcb : r0.underline <;> rfl
      · split
        · rw [(applyDefaultFont_preserved _).2.2.2.2,
            (applyCaptured_preserved _ _ _ _ _ _ _).2.2.2.2]
          cases hcb : r0.colorRgb <;> rfl
        · rw [(applyCaptured_preserved _ _ _ _ _ _ _).2.2.2.2]
          cases hcb : r0.colorRgb <;> rfl

/-- Witness for C2 at a paragraph of two runs whose first run has bold,
underline and color set and italic unset. -/
theorem c2_replace_text_preserving_format_witness :
    substrS "{{x}}" (paraText ⟨[⟨"Hello {{x}}", some "Arial", some 24, some true,
        none, some false, some 255⟩, mkRun " tail"]⟩) = true
    ∧ ((replaceTextPreservingFormat ⟨[⟨"Hello {{x}}", some "Arial", some 24,
        some true, none, some false, some 255⟩, mkRun " tail"]⟩
        "{{x}}" "World" true).1 = true
      ∧ ∃ r, (replaceTextPreservingFormat ⟨[⟨"Hello {{x}}", some "Arial", some 24,
          some true, none, some false, some 255⟩, mkRun " tail"]⟩
          "{{x}}" "World" true).2.runs = [r]
        ∧ r.text = pyReplace (paraText ⟨[⟨"Hello {{x}}", some "Arial", some 24,
            some true, none, some false, some 255⟩, mkRun " tail"]⟩) "{{x}}" "World"
        ∧ ∀ r0 rs, (⟨[⟨"Hello {{x}}", some "Arial", some 24, some true, none,
            some false, some 255⟩, mkRun " tail"]⟩ : Paragraph).runs = r0 :: rs →
            r.bold = r0.bold ∧ r.italic = r0.italic
            ∧ r.underline = r0.underline ∧ r.colorRgb = r0.colorRgb) :=
  ⟨by decide,
   (c2_replace_text_preserving_format ⟨[⟨"Hello {{x}}", some "Arial", some 24,
      some true, none, some false, some 255⟩, mkRun " tail"]⟩ "{{x}}" "World").2
     (by decide)⟩

/-! ## Lemmas and the theorem for claim C5 -/

/-- The scan returns index `j` when every earlier index of the window is a
non-empty header (skipped), `j` is not skipped, and `j`'s text is accepted:
a placeholder sentinel, a residual marker, or ordinary non-header text that
matches no other section's keywords. -/
theorem findEmptyScan_hits (kws : List String) (paras : List Paragraph) :
    ∀ (fuel i j : Nat), i ≤ j → j < i + fuel →
    (∀ k, i ≤ k → k < j → isHeaderPara kws (paras.getD k ⟨[]⟩) = true
      ∧ pyStrip (paraText (paras.getD k ⟨[]⟩)).data ≠ []) →
    ¬(isHeaderPara kws (paras.getD j ⟨[]⟩) = true
      ∧ pyStrip (paraText (paras.getD j ⟨[]⟩)).data ≠ []) →
    (PLACEHOLDER_SENTINELS.any
        (fun s => pyStrip (paraText (paras.getD j ⟨[]⟩)).data = s.data) = true
      ∨ substrInL "\x7b\x7b".data (pyStrip (paraText (paras.getD j ⟨[]⟩)).data) = true
      ∨ (pyStrip (paraText (paras.getD j ⟨[]⟩)).data ≠ []
          ∧ isHeaderPara kws (paras.getD j ⟨[]⟩) = false
          ∧ isOtherSectionHeader (paras.getD j ⟨[]⟩) = false)) →
    findEmptyScan kws paras i fuel = some j := by
  intro fuel
  induction fuel with
  | zero => intro i j hij hlt; omega
  | succ fuel ih =>
    intro i j hij hlt hskip hnotskip hacc
    rcases Nat.eq_or_lt_of_le hij with heq | hlt2
    · subst heq
      show (if isHeaderPara kws (paras.getD i ⟨[]⟩) = true
              ∧ pyStrip (paraText (paras.getD i ⟨[]⟩)).data ≠ [] then
            findEmptyScan kws paras (i + 1) fuel
          else if pyStrip (paraText (paras.getD i ⟨[]⟩)).data = []
              ∨ PLACEHOLDER_SENTINELS.any
                  (fun s => pyStrip (paraText (paras.getD i ⟨[]⟩)).data = s.data) then
            some i
          else if substrInL "\x7b\x7b".data (pyStrip (paraText (paras.getD i ⟨[]⟩)).data) then
            some i
          else if pyStrip (paraText (paras.getD i ⟨[]⟩)).data ≠ []
              ∧ isHeaderPara kws (paras.getD i ⟨[]⟩) = false then
            if isOtherSectionHeader (paras.getD i ⟨[]⟩) = false then some i
            else findEmptyScan kws paras (i + 1) fuel
          else findEmptyScan kws paras (i + 1) fuel) = some i
      rw [if_neg hnotskip]
      by_cases hempty : pyStrip (paraText (paras.getD i ⟨[]⟩)).data = []
          ∨ PLACEHOLDER_SENTINELS.any
              (fun s => pyStrip (paraText (paras.getD i ⟨[]⟩)).data = s.data) = true
      · rw [if_pos (by simpa using hempty)]
      · rw [if_neg (by simpa using hempty)]
        push_neg at hempty
        obtain ⟨hne, hnotsent⟩ := hempty
        by_cases hmark : substrInL "\x7b\x7b".data (pyStrip (paraText (paras.getD i ⟨[]⟩)).data) = true
        · rw [if_pos hmark]
        · rw [if_neg hmark]
          rcases hacc with hsent | hmark2 | ⟨_, hnothdr, hnotother⟩
          · exact absurd hsent hnotsent
          · exact absurd hmark2 hmark
          · rw [if_pos ⟨hne, hnothdr⟩, if_pos hnotother]
    · show (if isHeaderPara kws (paras.getD i ⟨[]⟩) = true
              ∧ pyStrip (paraText (paras.getD i ⟨[]⟩)).data ≠ [] then
            findEmptyScan kws paras (i + 1) fuel
          else if pyStrip (paraText (paras.getD i ⟨[]⟩)).data = []
              ∨ PLACEHOLDER_SENTINELS.any
                  (fun s => pyStrip (paraText (paras.getD i ⟨[]⟩)).data = s.data) then
            some i
          else if substrInL "\x7b\x7b".data (pyStrip (paraText (paras.getD i ⟨[]⟩)).data) then
            some i
          else if pyStrip (paraText (paras.getD i ⟨[]⟩)).data ≠ []
              ∧ isHeaderPara kws (paras.getD i ⟨[]⟩) = false then
            if isOtherSectionHeader (paras.getD i ⟨[]⟩) = false then some i
            else findEmptyScan kws paras (i + 1) fuel
          else findEmptyScan kws paras (i + 1) fuel) = some j
      rw [if_pos (hskip i (Nat.le_refl i) hlt2)]
      exact ih (i + 1) j hlt2 (by omega)
        (fun k h1 h2 => hskip k (by omega) h2) hnotskip hacc

/-- C5: when the located header position is followed, inside the 15-paragraph
window, only by non-empty headers of the same keyword set and then by a
paragraph that is empty/placeholder, carries a residual `{{` marker, or is
ordinary non-header text matching no other section's keywords, the locator
returns exactly that paragraph. -/
theorem c5_find_empty_after_header (paras : List Paragraph) (kws : List String)
    (h j : Nat)
    (hsec : findSectionByHeader paras kws = some h)
    (hhj : h ≤ j) (hwin : j < h + 15) (hlen : j < paras.length)
    (hskip : ∀ k, h ≤ k → k < j → isHeaderPara kws (paras.getD k ⟨[]⟩) = true
      ∧ pyStrip (paraText (paras.getD k ⟨[]⟩)).data ≠ [])
    (hnotskip : ¬(isHeaderPara kws (paras.getD j ⟨[]⟩) = true
      ∧ pyStrip (paraText (paras.getD j ⟨[]⟩)).data ≠ []))
    (hacc : PLACEHOLDER_SENTINELS.any
        (fun s => pyStrip (paraText (paras.getD j ⟨[]⟩)).data = s.data) = true
      ∨ substrInL "\x7b\x7b".data (pyStrip (paraText (paras.getD j ⟨[]⟩)).data) = true
      ∨ (pyStrip (paraText (paras.getD j ⟨[]⟩)).data ≠ []
          ∧ isHeaderPara kws (paras.getD j ⟨[]⟩) = false
          ∧ isOtherSectionHeader (paras.getD j ⟨[]⟩) = false)) :
    findEmptyParagraphAfterHeader paras kws 15 = some j := by
  unfold findEmptyParagraphAfterHeader
  rw [hsec]
  dsimp only
  rw [findEmptyScan_hits kws paras (min (h + 15) paras.length - h) h j hhj
    (by omega) hskip hnotskip hacc]

/-- Witness for C5: a header, three empty paragraphs, then the next
section's header; the locator returns the first empty paragraph (index 1),
not the second header (index 4). -/
theorem c5_find_empty_after_header_witness :
    findEmptyParagraphAfterHeader
      [⟨[mkRun "Вакансия"]⟩, ⟨[]⟩, ⟨[]⟩, ⟨[]⟩, ⟨[mkRun "Опыт работы"]⟩]
      ["вакансия"] 15 = some 1 :=
  c5_find_empty_after_header
    [⟨[mkRun "Вакансия"]⟩, ⟨[]⟩, ⟨[]⟩, ⟨[]⟩, ⟨[mkRun "Опыт работы"]⟩]
    ["вакансия"] 1 1 (by decide) (by decide) (by decide) (by decide)
    (by intro k h1 h2; omega) (by decide) (by decide)

/-! ## The theorem for claim C6 -/

/-- C6: `sort_projects_by_date` permutes its input into the order of the
ascending sort keys — descending by parsed `(year, month)` — every entry
whose date cannot be parsed (year 0) comes after all parseable entries, and
the spec's three-entry example sorts to `[2022, 2021, unparseable]`. -/
theorem c6_sort_projects_by_date (ps : List Project) :
    (sortProjectsByDate ps).Perm ps
    ∧ List.Sorted keyLe (sortProjectsByDate ps)
    ∧ (∀ i j, i < j → ∀ hj : j < (sortProjectsByDate ps).length,
        ∀ hi : i < (sortProjectsByDate ps).length,
        0 < projectYear ((sortProjectsByDate ps).get ⟨j, hj⟩) →
        0 < projectYear ((sortProjectsByDate ps).get ⟨i, hi⟩))
    ∧ sortProjectsByDate
        [⟨"Просто Компания", ""⟩, ⟨"ООО Ромашка / Февраль 2021", ""⟩,
         ⟨"Рога и Копыта / Март 2022", ""⟩]
      = [⟨"Рога и Копыта / Март 2022", ""⟩, ⟨"ООО Ромашка / Февраль 2021", ""⟩,
         ⟨"Просто Компания", ""⟩] := by
  refine ⟨List.perm_insertionSort keyLe ps, List.sorted_insertionSort keyLe ps,
    ?_, by decide⟩
  intro i j hij hj hi hyj
  have hrel : keyLe ((sortProjectsByDate ps).get ⟨i, hi⟩)
      ((sortProjectsByDate ps).get ⟨j, hj⟩) :=
    (List.sorted_insertionSort keyLe ps).rel_get_of_lt hij
  unfold keyLe getSortKey at hrel
  by_cases hyi : 0 < projectYear ((sortProjectsByDate ps).get ⟨i, hi⟩)
  · exact hyi
  · exfalso
    rw [if_neg hyi, if_pos hyj] at hrel
    omega

/-- Witness for C6 at the spec's example: the concrete order plus the
unparseable-last consequence at indices 0 < 2. -/
theorem c6_sort_projects_by_date_witness :
    sortProjectsByDate
        [⟨"Просто Компания", ""⟩, ⟨"ООО Ромашка / Февраль 2021", ""⟩,
         ⟨"Рога и Копыта / Март 2022", ""⟩]
      = [⟨"Рога и Копыта / Март 2022", ""⟩, ⟨"ООО Ромашка / Февраль 2021", ""⟩,
         ⟨"Просто Компания", ""⟩]
    ∧ 0 < projectYear ((sortProjectsByDate
        [⟨"Просто Компания", ""⟩, ⟨"ООО Ромашка / Февраль 2021", ""⟩,
         ⟨"Рога и Копыта / Март 2022", ""⟩]).get ⟨0, by decide⟩) :=
  ⟨(c6_sort_projects_by_date []).2.2.2,
   (c6_sort_projects_by_date
      [⟨"Просто Компания", ""⟩, ⟨"ООО Ромашка / Февраль 2021", ""⟩,
       ⟨"Рога и Копыта / Март 2022", ""⟩]).2.2.1 0 1 (by decide) (by decide)
      (by decide) (by decide)⟩

/-! ## Lemmas and theorems for claim C1 -/

theorem startsWith_self_append (pat r : List Char) : startsWithL pat (pat ++ r) = true := by
  induction pat with
  | nil => rfl
  | cons p ps ih => simp [startsWithL, ih]

theorem substrInL_append_right (pat : List Char) :
    ∀ (xs r : List Char), substrInL pat r = true → substrInL pat (xs ++ r) = true
  | [], _, h => h
  | x :: xs', r, h => by
    show (startsWithL pat (x :: (xs' ++ r)) || substrInL pat (xs' ++ r)) = true
    rw [substrInL_append_right pat xs' r h, Bool.or_true]

theorem substr_head_ne_false (o : Char) (pat' : List Char) :
    ∀ (l : List Char), (∀ c ∈ l, ¬ c = o) → substrInL (o :: pat') l = false
  | [], _ => rfl
  | c :: rest, h => by
    have hc : ¬ c = o := h c (by simp)
    have hsw : startsWithL (o :: pat') (c :: rest) = false := by
      show (decide (o = c) && startsWithL pat' rest) = false
      have : ¬ o = c := fun he => hc he.symm
      simp [this]
    show (startsWithL (o :: pat') (c :: rest) || substrInL (o :: pat') rest) = false
    rw [hsw, substr_head_ne_false o pat' rest (fun d hd => h d (by simp [hd])),
      Bool.or_self]

theorem pyReplaceFuel_no_occur (o : Char) (old' new : List Char) :
    ∀ (fuel : Nat) (l : List Char), substrInL (o :: old') l = false →
    pyReplaceFuel (o :: old') new fuel l = l
  | 0, _, _ => rfl
  | _ + 1, [], _ => rfl
  | fuel + 1, c :: rest, h => by
    have hor : startsWithL (o :: old') (c :: rest) = false
        ∧ substrInL (o :: old') rest = false := by
      have : (startsWithL (o :: old') (c :: rest) || substrInL (o :: old') rest) = false := h
      constructor
      · cases hx : startsWithL (o :: old') (c :: rest)
        · rfl
        · rw [hx, Bool.true_or] at this; exact this
      · cases hx : substrInL (o :: old') rest
        · rfl
        · rw [hx, Bool.or_true] at this; exact this
    show (if startsWithL (o :: old') (c :: rest) = true then _ else
        c :: pyReplaceFuel (o :: old') new fuel rest) = c :: rest
    rw [hor.1]
    simp only [Bool.false_eq_true, if_false, ite_false]
    rw [pyReplaceFuel_no_occur o old' new fuel rest hor.2]

theorem pyReplaceFuel_skip (o : Char) (old' new : List Char) :
    ∀ (xs : List Char) (fuel : Nat) (rest : List Char),
    (∀ c ∈ xs, ¬ c = o) → xs.length ≤ fuel →
    pyReplaceFuel (o :: old') new fuel (xs ++ rest)
      = xs ++ pyReplaceFuel (o :: old') new (fuel - xs.length) rest
  | [], fuel, rest, _, _ => by simp
  | x :: xs', fuel, rest, h, hf => by
    match fuel, hf with
    | f + 1, hf =>
      have hx : ¬ x = o := h x (by simp)
      have hsw : startsWithL (o :: old') (x :: (xs' ++ rest)) = false := by
        show (decide (o = x) && startsWithL old' (xs' ++ rest)) = false
        have : ¬ o = x := fun he => hx he.symm
        simp [this]
      show (if startsWithL (o :: old') (x :: (xs' ++ rest)) = true then _ else
          x :: pyReplaceFuel (o :: old') new f (xs' ++ rest)) = _
      rw [hsw]
      simp only [Bool.false_eq_true, if_false, ite_false]
      rw [pyReplaceFuel_skip o old' new xs' f rest (fun d hd => h d (by simp [hd]))
        (by simpa using hf)]
      simp [Nat.succ_sub_succ]

theorem pyReplaceFuel_match_head (o : Char) (old' new : List Char) (fuel : Nat)
    (r : List Char) :
    pyReplaceFuel (o :: old') new (fuel + 1) ((o :: old') ++ r)
      = new ++ pyReplaceFuel (o :: old') new fuel r := by
  have hsw : startsWithL (o :: old') ((o :: old') ++ r) = true :=
    startsWith_self_append (o :: old') r
  show (if startsWithL (o :: old') (o :: (old' ++ r)) = true then
      new ++ pyReplaceFuel (o :: old') new fuel ((o :: (old' ++ r)).drop (o :: old').length)
    else _) = _
  rw [show (o :: (old' ++ r)) = ((o :: old') ++ r) from rfl, hsw]
  simp only [if_true, ite_true]
  congr 1
  rw [List.drop_left]

/-- Python `s.replace(old, new)` where `s = xs ++ old ++ r`, the prefix `xs`
avoids the pattern's first character and the pattern does not occur in `r`:
exactly the middle occurrence is replaced. -/
theorem pyReplace_clean_once (xs : List Char) (o : Char) (old' r : List Char)
    (new : List Char) (hxs : ∀ c ∈ xs, ¬ c = o)
    (hr : substrInL (o :: old') r = false) :
    pyReplaceL (o :: old') new (xs ++ (o :: old') ++ r) = xs ++ new ++ r := by
  unfold pyReplaceL
  rw [List.append_assoc]
  rw [pyReplaceFuel_skip o old' new xs _ _ hxs
    (by simp [List.length_append])]
  have hfl : (xs ++ ((o :: old') ++ r)).length - xs.length
      = (old'.length + r.length) + 1 := by
    simp [List.length_append]
    try omega
  rw [hfl]
  have hm := pyReplaceFuel_match_head o old' new (old'.length + r.length) r
  rw [hm, pyReplaceFuel_no_occur o old' new _ r hr, List.append_assoc]

/-- `s.replace(old, new)` pinned down by a decomposition of `s` around the
unique occurrence of `old`. -/
theorem pyReplace_decomp (s old new : String) (xs : List Char) (o : Char)
    (old' r : List Char) (hs : s.data = xs ++ (o :: old') ++ r)
    (hold : old.data = o :: old') (hxs : ∀ c ∈ xs, ¬ c = o)
    (hr : substrInL (o :: old') r = false) :
    pyReplace s old new = ⟨xs ++ new.data ++ r⟩ := by
  unfold pyReplace
  congr 1
  rw [hold, hs]
  exact pyReplace_clean_once xs o old' r new.data hxs hr

theorem paraText_setParagraphText_mkrun (s t : String) :
    paraText (setParagraphText ⟨[]⟩ t (some ⟨[mkRun s]⟩)) = t := rfl

theorem paraText_singleton (r : Run) : paraText ⟨[r]⟩ = r.text := rfl

/-- The surviving text of `replace_text_preserving_format` when the pattern
is present. -/
theorem paraText_replaceTPF (p : Paragraph) (old new : String) (force : Bool)
    (h : substrS old (paraText p) = true) :
    paraText (replaceTextPreservingFormat p old new force).2
      = pyReplace (paraText p) old new := by
  unfold replaceTextPreservingFormat
  rw [if_pos h]
  dsimp only
  rw [paraText_singleton]
  split
  · rw [(applyDefaultFont_preserved _).1, (applyCaptured_preserved _ _ _ _ _ _ _).1]
  · rw [(applyCaptured_preserved _ _ _ _ _ _ _).1]

theorem paraText_setParagraphText_company (t : String) :
    paraText (setParagraphText ⟨[]⟩ t (some workCompanyTpl)) = t := rfl

theorem paraText_setParagraphText_resp (t : String) :
    paraText (setParagraphText ⟨[]⟩ t (some workRespTpl)) = t := rfl

theorem paraText_setParagraphText_tech (t : String) :
    paraText (setParagraphText ⟨[]⟩ t (some workTechTpl)) = t := rfl

/-- Company-line template rendering: the three scalar placeholders are
substituted in order. -/
theorem renderWorkPara_company_text (w : WorkItem)
    (hc : ∀ c ∈ w.company.data, ¬ c = '{') (hp : ∀ c ∈ w.position.data, ¬ c = '{')
    (hper : ∀ c ∈ w.period.data, ¬ c = '{') :
    paraText (renderWorkPara workCompanyTpl w)
      = w.company ++ " — " ++ w.position ++ ", " ++ w.period := by
  have hdash : ∀ c ∈ " — ".data, ¬ c = '{' := by decide
  have hcomma : ∀ c ∈ ", ".data, ¬ c = '{' := by decide
  have g1 : substrS "{{company}}" (paraText workCompanyTpl) = true := by decide
  have e1 : pyReplace (paraText workCompanyTpl) "{{company}}" w.company
      = ⟨w.company.data ++ " — {{position}}, {{period}}".data⟩ := by
    rw [pyReplace_decomp (paraText workCompanyTpl) "{{company}}" w.company
      [] '{' "\x7bcompany\x7d\x7d".data " — {{position}}, {{period}}".data
      (by decide) (by decide) (by simp) (by decide)]
    simp
  have g2 : substrS "{{position}}"
      (⟨w.company.data ++ " — {{position}}, {{period}}".data⟩ : String) = true := by
    show substrInL "{{position}}".data
      (w.company.data ++ " — {{position}}, {{period}}".data) = true
    exact substrInL_append_right _ _ _ (by decide)
  have e2 : pyReplace ⟨w.company.data ++ " — {{position}}, {{period}}".data⟩
        "{{position}}" w.position
      = ⟨(w.company.data ++ " — ".data) ++ w.position.data ++ ", {{period}}".data⟩ := by
    rw [pyReplace_decomp _ _ _ (w.company.data ++ " — ".data) '{' "\x7bposition\x7d\x7d".data
      ", {{period}}".data
      (by
        show w.company.data ++ " — {{position}}, {{period}}".data
          = (w.company.data ++ " — ".data) ++ ('{' :: "\x7bposition\x7d\x7d".data)
            ++ ", {{period}}".data
        rw [show (" — {{position}}, {{period}}".data : List Char)
          = " — ".data ++ (('{' :: "\x7bposition\x7d\x7d".data) ++ ", {{period}}".data)
          from by decide]
        simp [List.append_assoc])
      (by decide)
      (by
        intro c hcm
        rcases List.mem_append.mp hcm with h | h
        · exact hc c h
        · exact hdash c h)
      (by decide)]
  have g3 : substrS "{{period}}"
      (⟨(w.company.data ++ " — ".data) ++ w.position.data ++ ", {{period}}".data⟩
        : String) = true := by
    show substrInL "{{period}}".data
      (((w.company.data ++ " — ".data) ++ w.position.data) ++ ", {{period}}".data) = true
    exact substrInL_append_right _ _ _ (by decide)
  have e3 : pyReplace
        ⟨(w.company.data ++ " — ".data) ++ w.position.data ++ ", {{period}}".data⟩
        "{{period}}" w.period
      = ⟨(((w.company.data ++ " — ".data) ++ w.position.data) ++ ", ".data)
          ++ w.period.data ++ []⟩ := by
    rw [pyReplace_decomp _ _ _
      (((w.company.data ++ " — ".data) ++ w.position.data) ++ ", ".data) '{'
      "\x7bperiod\x7d\x7d".data []
      (by
        show ((w.company.data ++ " — ".data) ++ w.position.data) ++ ", {{period}}".data
          = (((w.company.data ++ " — ".data) ++ w.position.data) ++ ", ".data)
            ++ ('{' :: "\x7bperiod\x7d\x7d".data) ++ []
        rw [show (", {{period}}".data : List Char)
          = ", ".data ++ (('{' :: "\x7bperiod\x7d\x7d".data) ++ []) from by decide]
        simp [List.append_assoc])
      (by decide)
      (by
        intro c hcm
        rcases List.mem_append.mp hcm with h | h
        · rcases List.mem_append.mp h with h2 | h2
          · rcases List.mem_append.mp h2 with h3 | h3
            · exact hc c h3
            · exact hdash c h3
          · exact hp c h2
        · exact hcomma c h)
      (by decide)]
  have hT3 : ∀ c ∈ ((((w.company.data ++ " — ".data) ++ w.position.data) ++ ", ".data)
      ++ w.period.data ++ []), ¬ c = '{' := by
    intro c hcm
    rcases List.mem_append.mp hcm with h | h
    · rcases List.mem_append.mp h with h2 | h2
      · rcases List.mem_append.mp h2 with h3 | h3
        · rcases List.mem_append.mp h3 with h4 | h4
          · rcases List.mem_append.mp h4 with h5 | h5
            · exact hc c h5
            · exact hdash c h5
          · exact hp c h4
        · exact hcomma c h3
      · exact hper c h2
    · exact absurd h (List.not_mem_nil c)
  have gr : substrS "{{responsibilities}}"
      (⟨(((w.company.data ++ " — ".data) ++ w.position.data) ++ ", ".data)
        ++ w.period.data ++ []⟩ : String) = false := by
    show substrInL "{{responsibilities}}".data _ = false
    rw [show ("{{responsibilities}}".data : List Char)
      = '{' :: "\x7bresponsibilities\x7d\x7d".data from by decide]
    exact substr_head_ne_false '{' _ _ hT3
  have gt : substrS "{{technologies}}"
      (⟨(((w.company.data ++ " — ".data) ++ w.position.data) ++ ", ".data)
        ++ w.period.data ++ []⟩ : String) = false := by
    show substrInL "{{technologies}}".data _ = false
    rw [show ("{{technologies}}".data : List Char)
      = '{' :: "\x7btechnologies\x7d\x7d".data from by decide]
    exact substr_head_ne_false '{' _ _ hT3
  unfold renderWorkPara
  simp only [g1, e1, g2, e2, g3, e3, gr, gt, eq_self_iff_true, if_true,
    Bool.false_eq_true, if_false, ite_true, ite_false,
    paraText_setParagraphText_company]
  apply String.ext
  simp [String.data_append, List.append_assoc]

/-- Responsibilities template rendering: the whole template text is the
placeholder, replaced by the rendered bullet list. -/
theorem renderWorkPara_resp_text (w : WorkItem) :
    paraText (renderWorkPara workRespTpl w) = respListText w := by
  have g1 : substrS "{{company}}" (paraText workRespTpl) = false := by decide
  have g2 : substrS "{{position}}" (paraText workRespTpl) = false := by decide
  have g3 : substrS "{{period}}" (paraText workRespTpl) = false := by decide
  have gr : substrS "{{responsibilities}}" (paraText workRespTpl) = true := by decide
  have gt : substrS "{{technologies}}" (paraText workRespTpl) = false := by decide
  have hg : substrS "{{responsibilities}}"
      (paraText (setParagraphText ⟨[]⟩ (paraText workRespTpl) (some workRespTpl)))
        = true := by decide
  unfold renderWorkPara
  simp only [g1, g2, g3, gr, gt, eq_self_iff_true, if_true, Bool.false_eq_true,
    if_false, ite_true, ite_false]
  rw [paraText_replaceTPF _ _ _ _ hg]
  rw [paraText_setParagraphText_resp]
  rw [pyReplace_decomp (paraText workRespTpl) "{{responsibilities}}" (respListText w)
    [] '{' "\x7bresponsibilities\x7d\x7d".data [] (by decide) (by decide) (by simp) rfl]
  apply String.ext
  simp

/-- Technologies template rendering. -/
theorem renderWorkPara_tech_text (w : WorkItem) :
    paraText (renderWorkPara workTechTpl w) = techListText w := by
  have g1 : substrS "{{company}}" (paraText workTechTpl) = false := by decide
  have g2 : substrS "{{position}}" (paraText workTechTpl) = false := by decide
  have g3 : substrS "{{period}}" (paraText workTechTpl) = false := by decide
  have gr : substrS "{{responsibilities}}" (paraText workTechTpl) = false := by decide
  have gt : substrS "{{technologies}}" (paraText workTechTpl) = true := by decide
  have hg : substrS "{{technologies}}"
      (paraText (setParagraphText ⟨[]⟩ (paraText workTechTpl) (some workTechTpl)))
        = true := by decide
  unfold renderWorkPara
  simp only [g1, g2, g3, gr, gt, eq_self_iff_true, if_true, Bool.false_eq_true,
    if_false, ite_true, ite_false]
  rw [paraText_replaceTPF _ _ _ _ hg]
  rw [paraText_setParagraphText_tech]
  rw [pyReplace_decomp (paraText workTechTpl) "{{technologies}}" (techListText w)
    [] '{' "\x7btechnologies\x7d\x7d".data [] (by decide) (by decide) (by simp) rfl]
  apply String.ext
  simp

theorem insertIdx_at_append (A B : List Paragraph) (x : Paragraph) :
    (A ++ B).insertIdx A.length x = A ++ x :: B := by
  induction A with
  | nil => rfl
  | cons a A ih => simp [List.insertIdx_succ_cons, ih]

theorem insertGroup_middle :
    ∀ (tpls : List Paragraph) (w : WorkItem) (A B : List Paragraph),
    insertGroup tpls w A.length (A ++ B)
      = (A.length + tpls.length, A ++ (tpls.map (fun tpl => renderWorkPara tpl w)) ++ B)
  | [], w, A, B => by simp [insertGroup]
  | tpl :: rest, w, A, B => by
    show insertGroup rest w (A.length + 1)
        ((A ++ B).insertIdx A.length (renderWorkPara tpl w)) = _
    rw [insertIdx_at_append]
    rw [show A ++ (renderWorkPara tpl w) :: B
      = (A ++ [renderWorkPara tpl w]) ++ B from by simp]
    rw [show A.length + 1 = (A ++ [renderWorkPara tpl w]).length from by simp]
    rw [insertGroup_middle rest w (A ++ [renderWorkPara tpl w]) B]
    refine Prod.ext ?_ ?_
    · simp [List.length_append]
      omega
    · simp [List.append_assoc]

theorem processLoop_middle (tpls : List Paragraph) :
    ∀ (items : List WorkItem) (A B : List Paragraph),
    processWorkItemsLoop tpls items A.length (A ++ B)
      = (A.length + items.length * tpls.length,
         A ++ items.flatMap (fun w => tpls.map (fun tpl => renderWorkPara tpl w)) ++ B)
  | [], A, B => by simp [processWorkItemsLoop]
  | w :: rest, A, B => by
    show processWorkItemsLoop tpls rest (insertGroup tpls w A.length (A ++ B)).1
        (insertGroup tpls w A.length (A ++ B)).2 = _
    rw [insertGroup_middle]
    rw [show A.length + tpls.length
      = (A ++ tpls.map (fun tpl => renderWorkPara tpl w)).length from by
        simp [List.length_append]]
    rw [show A ++ tpls.map (fun tpl => renderWorkPara tpl w) ++ B
      = (A ++ tpls.map (fun tpl => renderWorkPara tpl w)) ++ B from by
        simp [List.append_assoc]]
    rw [processLoop_middle tpls rest (A ++ tpls.map (fun tpl => renderWorkPara tpl w)) B]
    refine Prod.ext ?_ ?_
    · simp [List.length_append, List.length_map]
      ring
    · simp [List.append_assoc]

theorem flatMap_congr_mem {α β : Type} (l : List α) (f g : α → List β)
    (h : ∀ a ∈ l, f a = g a) : l.flatMap f = l.flatMap g := by
  induction l with
  | nil => rfl
  | cons a t ih =>
    simp only [List.flatMap_cons]
    rw [h a (by simp), ih (fun b hb => h b (by simp [hb]))]

/-- The closed-form result of `process_work_experience` on the concrete
template: markers stripped to empty paragraphs, the interior deleted, one
rendered group inserted per item. -/
theorem processWorkExperience_template (items : List WorkItem) (hne : items ≠ []) :
    processWorkExperience workTemplateDoc items
      = (([workHeaderPara, ⟨[mkRun ""]⟩] : List Paragraph)
          ++ items.flatMap (fun w => [workCompanyTpl, workRespTpl, workTechTpl].map
              (fun tpl => renderWorkPara tpl w))
          ++ [⟨[mkRun ""]⟩, workFooterPara], items.length) := by
  cases items with
  | nil => exact absurd rfl hne
  | cons i rest =>
    show ((processWorkItemsLoop [workCompanyTpl, workRespTpl, workTechTpl] (i :: rest)
        ([workHeaderPara, ⟨[mkRun ""]⟩] : List Paragraph).length
        (([workHeaderPara, ⟨[mkRun ""]⟩] : List Paragraph)
          ++ [⟨[mkRun ""]⟩, workFooterPara])).2, (i :: rest).length) = _
    rw [processLoop_middle [workCompanyTpl, workRespTpl, workTechTpl] (i :: rest)
      [workHeaderPara, ⟨[mkRun ""]⟩] [⟨[mkRun ""]⟩, workFooterPara]]

theorem string_append_chars (P : Char → Prop) (a b : String)
    (ha : ∀ c ∈ a.data, P c) (hb : ∀ c ∈ b.data, P c) :
    ∀ c ∈ (a ++ b).data, P c := by
  intro c hc
  rw [String.data_append] at hc
  rcases List.mem_append.mp hc with h | h
  · exact ha c h
  · exact hb c h

theorem joinSep_chars (P : Char → Prop) (sep : String)
    (hsep : ∀ c ∈ sep.data, P c) :
    ∀ (parts : List String), (∀ p ∈ parts, ∀ c ∈ p.data, P c) →
    ∀ c ∈ (joinSep sep parts).data, P c
  | [], _, c, hc => absurd hc (List.not_mem_nil c)
  | [x], h, c, hc => h x (by simp) c hc
  | x :: y :: rest, h, c, hc => by
    rw [show joinSep sep (x :: y :: rest) = x ++ sep ++ joinSep sep (y :: rest)
      from rfl] at hc
    exact string_append_chars P (x ++ sep) (joinSep sep (y :: rest))
      (string_append_chars P x sep (h x (by simp)) hsep)
      (joinSep_chars P sep hsep (y :: rest)
        (fun p hp => h p (List.mem_cons_of_mem x hp)))
      c hc

theorem expectedGroupTexts_noBrace (w : WorkItem) (hw : cleanWorkItem w) :
    ∀ t ∈ expectedGroupTexts w, ∀ c ∈ t.data, ¬ c = '{' ∧ ¬ c = '}' := by
  obtain ⟨hc, hp, hper, hresp, htech⟩ := hw
  intro t ht
  have hdash : ∀ c ∈ (" — " : String).data, ¬ c = '{' ∧ ¬ c = '}' := by decide
  have hcomma : ∀ c ∈ (", " : String).data, ¬ c = '{' ∧ ¬ c = '}' := by decide
  have hnl : ∀ c ∈ ("\n" : String).data, ¬ c = '{' ∧ ¬ c = '}' := by decide
  have hbul : ∀ c ∈ ("• " : String).data, ¬ c = '{' ∧ ¬ c = '}' := by decide
  unfold expectedGroupTexts at ht
  simp only [List.mem_cons, List.not_mem_nil, or_false] at ht
  rcases ht with rfl | rfl | rfl
  · exact string_append_chars _ _ _
      (string_append_chars _ _ _
        (string_append_chars _ _ _
          (string_append_chars _ _ _ hc hdash) hp) hcomma) hper
  · unfold respListText
    split
    · exact joinSep_chars _ "\n" hnl _ (by
        intro p hp2
        rcases List.mem_map.mp hp2 with ⟨r, hr, hrp⟩
        rw [← hrp]
        exact string_append_chars _ _ _ hbul (hresp r hr))
    · intro c hcm
      exact absurd hcm (List.not_mem_nil c)
  · unfold techListText
    split
    · split
      · exact joinSep_chars _ "\n" hnl _ htech
      · exact joinSep_chars _ ", " hcomma _ htech
    · intro c hcm
      exact absurd hcm (List.not_mem_nil c)

/-- C1 (amended for `K = 0`): for every non-empty clean `work_experience`
list the marker block expands to exactly one cloned paragraph-group per
item, with the per-item sub-placeholders substituted, and no `{`/`}` —
hence no marker token — survives anywhere in the document. -/
theorem c1_marker_block_expansion (items : List WorkItem) (hne : items ≠ [])
    (hclean : ∀ w ∈ items, cleanWorkItem w) :
    (processWorkExperience workTemplateDoc items).2 = items.length
    ∧ ((processWorkExperience workTemplateDoc items).1.map paraText)
        = ["ОПЫТ РАБОТЫ", ""] ++ items.flatMap expectedGroupTexts ++ ["", "Конец"]
    ∧ ∀ t ∈ ((processWorkExperience workTemplateDoc items).1.map paraText),
        ∀ c ∈ t.data, ¬ c = '{' ∧ ¬ c = '}' := by
  have hmap : ((processWorkExperience workTemplateDoc items).1.map paraText)
      = ["ОПЫТ РАБОТЫ", ""] ++ items.flatMap expectedGroupTexts ++ ["", "Конец"] := by
    rw [processWorkExperience_template items hne]
    show (([workHeaderPara, ⟨[mkRun ""]⟩] : List Paragraph)
        ++ items.flatMap (fun w => [workCompanyTpl, workRespTpl, workTechTpl].map
            (fun tpl => renderWorkPara tpl w))
        ++ [⟨[mkRun ""]⟩, workFooterPara]).map paraText = _
    rw [List.map_append, List.map_append, List.map_flatMap]
    rw [flatMap_congr_mem items _ expectedGroupTexts (by
      intro w hw
      obtain ⟨hcw, hpw, hperw, _, _⟩ := hclean w hw
      show [paraText (renderWorkPara workCompanyTpl w),
            paraText (renderWorkPara workRespTpl w),
            paraText (renderWorkPara workTechTpl w)] = expectedGroupTexts w
      rw [renderWorkPara_company_text w (fun c hc2 => (hcw c hc2).1)
          (fun c hc2 => (hpw c hc2).1) (fun c hc2 => (hperw c hc2).1),
        renderWorkPara_resp_text w, renderWorkPara_tech_text w]
      rfl)]
    rfl
  refine ⟨?_, hmap, ?_⟩
  · rw [processWorkExperience_template items hne]
  · intro t ht
    rw [hmap] at ht
    rcases List.mem_append.mp ht with h | h
    · rcases List.mem_append.mp h with h2 | h2
      · simp only [List.mem_cons, List.not_mem_nil, or_false] at h2
        rcases h2 with rfl | rfl
        · intro c hc; revert hc; revert c; decide
        · intro c hc; exact absurd hc (List.not_mem_nil c)
      · rcases List.mem_flatMap.mp h2 with ⟨w, hw, htw⟩
        exact expectedGroupTexts_noBrace w (hclean w hw) t htw
    · simp only [List.mem_cons, List.not_mem_nil, or_false] at h
      rcases h with rfl | rfl
      · intro c hc; exact absurd hc (List.not_mem_nil c)
      · intro c hc; revert hc; revert c; decide

/-- Counterexample to C1 as stated: for `K = 0` the function returns with
the document untouched — the marker tokens and the template paragraphs all
remain, so the block does not collapse to nothing. -/
theorem c1_zero_items_counterexample :
    processWorkExperience workTemplateDoc [] = (workTemplateDoc, 0)
    ∧ ((workTemplateDoc.map paraText).any
        (fun t => substrS "\x7b\x7b#work_experience\x7d\x7d" t)) = true := by
  exact ⟨rfl, by decide⟩

/-- Witness for C1 at `K = 5` with concrete clean items. -/
theorem c1_marker_block_expansion_witness :
    (processWorkExperience workTemplateDoc
      [⟨"А", "а", "2020", [], []⟩, ⟨"Б", "б", "2021", ["x"], []⟩,
       ⟨"В", "в", "2022", [], ["t: u"]⟩, ⟨"Г", "г", "2023", ["y", "z"], ["p"]⟩,
       ⟨"Д", "д", "2024", [], []⟩]).2 = 5
    ∧ ((processWorkExperience workTemplateDoc
      [⟨"А", "а", "2020", [], []⟩, ⟨"Б", "б", "2021", ["x"], []⟩,
       ⟨"В", "в", "2022", [], ["t: u"]⟩, ⟨"Г", "г", "2023", ["y", "z"], ["p"]⟩,
       ⟨"Д", "д", "2024", [], []⟩]).1.map paraText)
      = ["ОПЫТ РАБОТЫ", ""]
        ++ ([⟨"А", "а", "2020", [], []⟩, ⟨"Б", "б", "2021", ["x"], []⟩,
             ⟨"В", "в", "2022", [], ["t: u"]⟩, ⟨"Г", "г", "2023", ["y", "z"], ["p"]⟩,
             ⟨"Д", "д", "2024", [], []⟩] : List WorkItem).flatMap expectedGroupTexts
        ++ ["", "Конец"] :=
  ⟨(c1_marker_block_expansion _ (by decide) (by decide)).1,
   (c1_marker_block_expansion _ (by decide) (by decide)).2.1⟩

/-! ## Theorems for claim C9 -/

/-- C9 (amended): a locked target (`PermissionError`) diverts the write to
`<base>_<YYYYMMDD_HHMMSS><ext>` — note the underscore inside the timestamp —
and the save step raises exactly when the first save fails for a reason
other than locking or the single fallback attempt also fails. -/
theorem c9_save_fallback (save : String → SaveOutcome) (now : DateTimeM)
    (out : String) :
    (save out = .ok → fillDocumentSave save now out = .saved out)
    ∧ (save out = .permissionError → save (fallbackOutputPath out now) = .ok →
        fillDocumentSave save now out = .saved (fallbackOutputPath out now))
    ∧ (save out = .permissionError → save (fallbackOutputPath out now) ≠ .ok →
        fillDocumentSave save now out = .raised)
    ∧ (save out = .otherError → fillDocumentSave save now out = .raised)
    ∧ (fillDocumentSave save now out = .raised →
        ¬ save out = .ok
        ∧ (save out = .permissionError → ¬ save (fallbackOutputPath out now) = .ok)) := by
  refine ⟨?_, ?_, ?_, ?_, ?_⟩
  · intro h; unfold fillDocumentSave; rw [h]
  · intro h1 h2; unfold fillDocumentSave; rw [h1, h2]
  · intro h1 h2
    unfold fillDocumentSave
    rw [h1]
    cases h3 : save (fallbackOutputPath out now) with
    | ok => exact absurd h3 h2
    | permissionError => rfl
    | otherError => rfl
  · intro h; unfold fillDocumentSave; rw [h]
  · intro h
    unfold fillDocumentSave at h
    cases h1 : save out with
    | ok => rw [h1] at h; exact absurd h (by simp)
    | permissionError =>
      refine ⟨by simp, ?_⟩
      intro _ h2
      rw [h1, h2] at h
      exact absurd h (by simp)
    | otherError =>
      refine ⟨by simp, ?_⟩
      intro h2
      exact absurd h2 (by simp)

/-- Counterexample to C9 as stated: with the requested path locked, the code
writes `out_20240102_030405.docx`, not the claim's
`out_20240102030405.docx` — the timestamp carries an inner underscore. -/
theorem c9_save_fallback_counterexample :
    fillDocumentSave
        (fun p => if p = "out.docx" then SaveOutcome.permissionError else SaveOutcome.ok)
        ⟨2024, 1, 2, 3, 4, 5⟩ "out.docx"
      = SaveResult.saved "out_20240102_030405.docx"
    ∧ ("out_20240102_030405.docx" : String) ≠ "out_20240102030405.docx" := by
  constructor
  · rfl
  · decide

/-- Witness for C9: the locked-target path and the raise conditions at
concrete oracles. -/
theorem c9_save_fallback_witness :
    fillDocumentSave
        (fun p => if p = "out.docx" then SaveOutcome.permissionError else SaveOutcome.ok)
        ⟨2024, 1, 2, 3, 4, 5⟩ "out.docx"
      = SaveResult.saved (fallbackOutputPath "out.docx" ⟨2024, 1, 2, 3, 4, 5⟩)
    ∧ fillDocumentSave (fun _ => SaveOutcome.otherError) ⟨2024, 1, 2, 3, 4, 5⟩
        "out.docx" = SaveResult.raised :=
  ⟨(c9_save_fallback
      (fun p => if p = "out.docx" then SaveOutcome.permissionError else SaveOutcome.ok)
      ⟨2024, 1, 2, 3, 4, 5⟩ "out.docx").2.1 (by decide) (by decide),
   (c9_save_fallback (fun _ => SaveOutcome.otherError) ⟨2024, 1, 2, 3, 4, 5⟩
      "out.docx").2.2.2.1 rfl⟩


/-! ## Lemmas and theorems for claims C3 and C10 -/

theorem updateAt_length {α : Type} (f : α → α) :
    ∀ (l : List α) (i : Nat), (updateAt l i f).length = l.length := by
  intro l
  induction l with
  | nil => intro i; rfl
  | cons x rest ih =>
    intro i
    cases i with
    | zero => rfl
    | succ n => simp [updateAt, ih n]

theorem bindE_ok {α β : Type} (a : α) (f : α → Except PyErr β) :
    bindE (Except.ok a) f = f a := rfl

theorem getParaAt_ok (doc : List Paragraph) (i : Nat) (h : i < doc.length) :
    getParaAt doc i = Except.ok doc[i] := by
  unfold getParaAt
  rw [List.getElem?_eq_getElem h]

theorem fillCompanyStep_ok (doc : List Paragraph) (slot : Option Nat)
    (c : String) (h : slotInRange slot doc.length = true) :
    ∃ d, fillCompanyStep doc slot c = Except.ok d ∧ d.length = doc.length := by
  cases slot with
  | none => exact ⟨doc, rfl, rfl⟩
  | some j =>
    have hj : j < doc.length := by
      unfold slotInRange at h
      exact of_decide_eq_true h
    unfold fillCompanyStep
    dsimp only
    rw [getParaAt_ok doc j hj]
    dsimp only
    split
    · exact ⟨_, rfl, updateAt_length _ doc j⟩
    · exact ⟨doc, rfl, rfl⟩

theorem fillLabelStep_ok (doc : List Paragraph) (slot : Option Nat)
    (kw lbl : String) (h : slotInRange slot doc.length = true) :
    ∃ d, fillLabelStep doc slot kw lbl = Except.ok d ∧ d.length = doc.length := by
  cases slot with
  | none => exact ⟨doc, rfl, rfl⟩
  | some j =>
    have hj : j < doc.length := by
      unfold slotInRange at h
      exact of_decide_eq_true h
    unfold fillLabelStep
    dsimp only
    rw [getParaAt_ok doc j hj]
    dsimp only
    split
    · exact ⟨_, rfl, updateAt_length _ doc j⟩
    · exact ⟨doc, rfl, rfl⟩

theorem fillRoleValueStep_ok (doc : List Paragraph) (slot : Option Nat)
    (role : String) (h : slotInRange slot doc.length = true) :
    ∃ d, fillRoleValueStep doc slot role = Except.ok d ∧ d.length = doc.length := by
  cases slot with
  | none => exact ⟨doc, rfl, rfl⟩
  | some j =>
    have hj : j < doc.length := by
      unfold slotInRange at h
      exact of_decide_eq_true h
    unfold fillRoleValueStep
    dsimp only
    rw [getParaAt_ok doc j hj]
    exact ⟨_, rfl, by rw [updateAt_length, updateAt_length]⟩

theorem fillBulletStep_empty (doc : List Paragraph) (indices : List Nat)
    (items placeholders : List String)
    (h : normalizeBulletItems items placeholders = []) :
    fillBulletStep doc indices items placeholders = Except.ok doc := by
  unfold fillBulletStep
  rw [h]
  rfl

theorem fillTechValueStep_err (doc : List Paragraph) (i : Nat)
    (techs : List String) (hi : i < doc.length)
    (h1 : techs ≠ []) (h2 : techs ≠ ["Технологии и инструменты"])
    (h3 : (techs.filter (fun t =>
      !(t == "Технологии и инструменты") && !(pyStripS t == ""))).isEmpty
        = false) :
    fillTechValueStep doc (some i) techs
      = Except.error (PyErr.nameError "flatten_technology_entries") := by
  unfold fillTechValueStep
  dsimp only
  rw [getParaAt_ok doc i hi]
  dsimp only
  rw [if_pos ⟨h1, h2⟩, if_neg (by rw [h3]; exact Bool.false_ne_true)]
  rfl

theorem fillBlocksLoop_count (ps : List ProjectItem) :
    ∀ (blocks : List ProjectBlock) (doc : DocT) (idx count : Nat)
      (d : DocT) (n : Nat),
      fillBlocksLoop ps doc blocks idx count = Except.ok (d, n) →
      n = count + min blocks.length (ps.length - idx) := by
  intro blocks
  induction blocks with
  | nil =>
    intro doc idx count d n h
    unfold fillBlocksLoop at h
    injection h with h1
    injection h1 with h2 h3
    simp only [List.length_nil, Nat.zero_min, Nat.add_zero]
    omega
  | cons b rest ih =>
    intro doc idx count d n h
    unfold fillBlocksLoop at h
    by_cases hidx : idx < ps.length
    · rw [if_pos hidx] at h
      have hstep : ∀ doc2 : DocT,
          fillBlocksLoop ps doc2 rest (idx + 1) (count + 1) = Except.ok (d, n) →
          n = count + min (b :: rest).length (ps.length - idx) := by
        intro doc2 h2
        have := ih doc2 (idx + 1) (count + 1) d n h2
        have hL : ps.length - idx = (ps.length - (idx + 1)) + 1 := by omega
        rw [List.length_cons, hL]
        omega
      cases b with
      | para bf =>
        dsimp only at h
        cases hf : fillSingleProjectBlock doc.paragraphs bf
            (ps.getD idx ⟨"", "", [], none, [], []⟩) with
        | error e =>
          rw [hf] at h
          dsimp only at h
          exact Except.noConfusion h
        | ok pr =>
          obtain ⟨ps2, b2⟩ := pr
          rw [hf] at h
          dsimp only at h
          exact hstep _ h
      | table bi =>
        dsimp only at h
        cases hf : fillSingleProjectBlockInTable doc bi
            (ps.getD idx ⟨"", "", [], none, [], []⟩) with
        | error e =>
          rw [hf] at h
          dsimp only at h
          exact Except.noConfusion h
        | ok pr =>
          obtain ⟨d2, b2⟩ := pr
          rw [hf] at h
          dsimp only at h
          exact hstep _ h
    · rw [if_neg hidx] at h
      have := ih doc (idx + 1) count d n h
      have h1 : ps.length - idx = 0 := by omega
      have h2 : ps.length - (idx + 1) = 0 := by omega
      rw [h2, Nat.min_zero] at this
      rw [List.length_cons, h1, Nat.min_zero]
      omega

/-- C3: the pass-2 zip loop does fill exactly `min(number of discovered
blocks, number of real data items)` blocks whenever it finishes without an
exception — but the no-exception clause of the claim is broken by a code
slip: on the documented shape (2 discovered blocks, 5 data items), items
whose only real content is a technologies list drive the very first block
fill into `flatten_technology_entries`, a function referenced at line 2604
but defined nowhere, so the loop raises `NameError` instead of filling 2
blocks. -/
theorem c3_block_zipping (doc : DocT) (blocks : List ProjectBlock)
    (ps : List ProjectItem)
    (h : isOkE (fillProjectBlocksPass2 doc blocks ps) = true) :
    resultCount (fillProjectBlocksPass2 doc blocks ps)
      = some (min blocks.length (filterRealProjects ps).length)
  ∧ fillProjectBlocksPass2 c3Doc [c3BlockA, c3BlockB] c3Items
      = Except.error (PyErr.nameError "flatten_technology_entries") := by
  constructor
  · unfold fillProjectBlocksPass2 at h ⊢
    by_cases hreal : (filterRealProjects ps).isEmpty = true
    · rw [if_pos hreal]
      have hlen : (filterRealProjects ps).length = 0 := by
        rw [List.isEmpty_iff] at hreal
        rw [hreal]
        rfl
      rw [hlen, Nat.min_zero]
      rfl
    · rw [if_neg hreal] at h ⊢
      by_cases hblk : blocks.isEmpty = true
      · rw [if_pos hblk]
        have hlen : blocks.length = 0 := by
          rw [List.isEmpty_iff] at hblk
          rw [hblk]
          rfl
        rw [hlen, Nat.zero_min]
        rfl
      · rw [if_neg hblk] at h ⊢
        cases hr : fillBlocksLoop (filterRealProjects ps) doc blocks 0 0 with
        | error e =>
          rw [hr] at h
          exact Bool.noConfusion h
        | ok pr =>
          obtain ⟨d, n⟩ := pr
          have hn := fillBlocksLoop_count (filterRealProjects ps) blocks doc
            0 0 d n hr
          unfold resultCount
          dsimp only
          rw [hn]
          simp only [Nat.zero_add, Nat.sub_zero]
  · rfl

/-- Witness: with five placeholder-free items that carry no list data the
same two blocks fill exception-free, and the count is `min 2 5 = 2`. -/
theorem c3_block_zipping_witness :
    resultCount (fillProjectBlocksPass2 c3Doc [c3BlockA, c3BlockB] c3OkItems)
      = some (min ([c3BlockA, c3BlockB] : List ProjectBlock).length
          (filterRealProjects c3OkItems).length)
  ∧ fillProjectBlocksPass2 c3Doc [c3BlockA, c3BlockB] c3Items
      = Except.error (PyErr.nameError "flatten_technology_entries") :=
  c3_block_zipping c3Doc [c3BlockA, c3BlockB] c3OkItems (by decide)

/-- C10: `flatten_technology_entries` is bound nowhere in the module (and
neither is `achievements`), so the heuristic fill is not total on real
technology data: a paragraph block whose technologies slot was discovered
and whose technologies list keeps at least one real entry after filtering
raises `NameError` at the `flatten_technology_entries` call (line 2604);
the multi-column table variant raises `NameError` even earlier, at the
debug print that reads the unbound name `achievements` (line 2644), its
own `flatten_technology_entries` call sites (lines 2781–2805) being
downstream of that raise. -/
theorem c10_flatten_technology_undefined :
    (moduleGlobals.contains "flatten_technology_entries" = false
      ∧ moduleGlobals.contains "achievements" = false)
  ∧ (∀ (doc : List Paragraph) (bf : BlockFields) (item : ProjectItem)
      (i : Nat),
      bf.tech_value = some i → i < doc.length →
      slotInRange bf.company doc.length = true →
      slotInRange bf.role_label doc.length = true →
      slotInRange bf.role_value doc.length = true →
      slotInRange bf.tasks_label doc.length = true →
      slotInRange bf.tech_label doc.length = true →
      normalizeBulletItems item.tasks ["Задачи"] = [] →
      normalizeBulletItems (effectiveAchievements item) ["Достижения"] = [] →
      item.technologies_and_tools ≠ [] →
      item.technologies_and_tools ≠ ["Технологии и инструменты"] →
      (item.technologies_and_tools.filter (fun t =>
        !(t == "Технологии и инструменты")
          && !(pyStripS t == ""))).isEmpty = false →
      fillSingleProjectBlock doc bf item
        = Except.error (PyErr.nameError "flatten_technology_entries"))
  ∧ (∀ (doc : DocT) (bi : TableBlockInfo) (item : ProjectItem),
      tableIsSingleColumnAt doc.tables bi.table_idx = false →
      fillSingleProjectBlockInTable doc bi item
        = Except.error (PyErr.nameError "achievements")) := by
  refine ⟨⟨by decide, by decide⟩, ?_, ?_⟩
  · intro doc bf item i hslot hi hc hrl hrv htl htech hT hA g1 g2 g3
    obtain ⟨d1, h1, l1⟩ := fillCompanyStep_ok doc bf.company
      (pyStripS item.company) hc
    obtain ⟨d2, h2, l2⟩ := fillLabelStep_ok d1 bf.role_label "роль:" "Роль:"
      (by rw [l1]; exact hrl)
    obtain ⟨d3, h3, l3⟩ := fillRoleValueStep_ok d2 bf.role_value
      (pyStripS item.role) (by rw [l2, l1]; exact hrv)
    obtain ⟨d4, h4, l4⟩ := fillLabelStep_ok d3 bf.tasks_label "задачи:"
      "Задачи:" (by rw [l3, l2, l1]; exact htl)
    have h5 := fillBulletStep_empty d4 bf.tasks_fields item.tasks
      ["Задачи"] hT
    have h6 := fillBulletStep_empty d4 bf.achievements_fields
      (effectiveAchievements item) ["Достижения"] hA
    obtain ⟨d7, h7, l7⟩ := fillLabelStep_ok d4 bf.tech_label "технологии"
      "Технологии и инструменты:" (by rw [l4, l3, l2, l1]; exact htech)
    have hlen7 : i < d7.length := by rw [l7, l4, l3, l2, l1]; exact hi
    have h8 := fillTechValueStep_err d7 i item.technologies_and_tools hlen7
      g1 g2 g3
    unfold fillSingleProjectBlock
    rw [h1, bindE_ok, h2, bindE_ok, h3, bindE_ok, h4, bindE_ok, h5, bindE_ok,
      h6, bindE_ok, h7, bindE_ok, hslot, h8]
    rfl
  · intro doc bi item h
    unfold tableIsSingleColumnAt at h
    unfold fillSingleProjectBlockInTable
    cases hT : doc.tables[bi.table_idx]? with
    | none =>
      rw [hT] at h
      dsimp only at h
      exact Bool.noConfusion h
    | some t =>
      rw [hT] at h
      dsimp only at h
      dsimp only
      rw [if_neg (by rw [h]; exact Bool.false_ne_true)]
      rfl

/-- Witness for C10: a one-paragraph block with a discovered technologies
slot and one real technology entry hits the paragraph-variant `NameError`;
a two-cell table row hits the table-variant `NameError`. -/
theorem c10_flatten_technology_undefined_witness :
    fillSingleProjectBlock c10Doc c10Bf c10Item
      = Except.error (PyErr.nameError "flatten_technology_entries")
  ∧ fillSingleProjectBlockInTable c10TableDoc c10TableInfo c10Item
      = Except.error (PyErr.nameError "achievements") :=
  ⟨c10_flatten_technology_undefined.2.1 c10Doc c10Bf c10Item 0 rfl (by decide)
      rfl rfl rfl rfl rfl rfl rfl (by decide) (by decide) (by decide),
   c10_flatten_technology_undefined.2.2 c10TableDoc c10TableInfo c10Item
      (by decide)⟩

end CVBot
